import Mathlib

set_option linter.unusedVariables false

/-!
Shallow embedding of the calendar-summary extension's event-extraction and
aggregation engine (`src/event-parser.ts`, `src/time-calculator.ts`,
`src/date-utils.ts`, `src/constants/*`), together with proofs settling the
frozen claims about it.

JavaScript semantics are modelled explicitly:
* `JSVal` models a `number | null` value (`null`, `NaN`, or an integer —
  every number produced by this code is an integer or `NaN`);
* `JSDate` models a `Date` object (invalid, or a canonical civil date plus
  milliseconds within the day);
* regular expressions are run by a small backtracking engine (`mre`) with
  JavaScript preference order (leftmost match, greedy/lazy as written);
* DOM elements are trees (`Elem`); the ancestor chain of a node is carried
  as an explicit list; host-provided behaviour (today's date, the host's
  `Date`-string parser, URL query parameters, computed styles, client
  rectangles) is part of the input model (`Env` / `Elem` fields).
-/

namespace CalSum

/-! ## JavaScript numbers (`number | null`) -/

/-- A JavaScript `number | null` value as used by the parser: `null`, `NaN`,
or an integer (all numbers produced by this code are integral). -/
inductive JSVal where
  | jnull
  | jnan
  | jint (n : Int)
deriving DecidableEq, Repr

namespace JSVal

/-- Numeric coercion used by JS arithmetic: `null` coerces to `0`, `NaN` to
no value. -/
def toNum : JSVal → Option Int
  | jnull => some 0
  | jnan => none
  | jint n => some n

/-- JS `+` on `number | null` operands. -/
def jadd (a b : JSVal) : JSVal :=
  match a.toNum, b.toNum with
  | some x, some y => jint (x + y)
  | _, _ => jnan

/-- JS `-`. -/
def jsub (a b : JSVal) : JSVal :=
  match a.toNum, b.toNum with
  | some x, some y => jint (x - y)
  | _, _ => jnan

/-- JS `*`. -/
def jmul (a b : JSVal) : JSVal :=
  match a.toNum, b.toNum with
  | some x, some y => jint (x * y)
  | _, _ => jnan

/-- JS `<=` (false whenever an operand is `NaN`; `null` coerces to 0). -/
def jle (a b : JSVal) : Bool :=
  match a.toNum, b.toNum with
  | some x, some y => decide (x ≤ y)
  | _, _ => false

/-- JS `<`. -/
def jlt (a b : JSVal) : Bool :=
  match a.toNum, b.toNum with
  | some x, some y => decide (x < y)
  | _, _ => false

/-- JS `>`. -/
def jgt (a b : JSVal) : Bool := jlt b a

/-- JS `>=`. -/
def jge (a b : JSVal) : Bool := jle b a

/-- JS `=== null`. -/
def isNull : JSVal → Bool
  | jnull => true
  | _ => false

end JSVal

/-! ## Characters and strings -/

/-- JS `\s` / `String.prototype.trim` whitespace (the code points this code
can meet). -/
def jsIsWhite (c : Char) : Bool :=
  c = ' ' ∨ c = '\t' ∨ c = '\n' ∨ c = '\r' ∨
  c = Char.ofNat 11 ∨ c = Char.ofNat 12 ∨ c = Char.ofNat 160

def isDig (c : Char) : Bool := '0' ≤ c ∧ c ≤ '9'

/-- Lower-casing for the alphabets this code touches (ASCII and Cyrillic),
as `String.prototype.toLowerCase` does on them. -/
def toLowerJS (c : Char) : Char :=
  if 'A' ≤ c ∧ c ≤ 'Z' then Char.ofNat (c.toNat + 32)
  else if c = 'Ё' then 'ё'
  else if 'А' ≤ c ∧ c ≤ 'Я' then Char.ofNat (c.toNat + 32)
  else c

/-- Upper-casing (ASCII and Cyrillic), as `String.prototype.toUpperCase`. -/
def toUpperJS (c : Char) : Char :=
  if 'a' ≤ c ∧ c ≤ 'z' then Char.ofNat (c.toNat - 32)
  else if c = 'ё' then 'Ё'
  else if 'а' ≤ c ∧ c ≤ 'я' then Char.ofNat (c.toNat - 32)
  else c

def strLower (s : String) : String := String.mk (s.data.map toLowerJS)

def strUpper (s : String) : String := String.mk (s.data.map toUpperJS)

/-- Models `String.prototype.trim`. -/
def trimJS (s : String) : String :=
  String.mk (((s.data.dropWhile jsIsWhite).reverse.dropWhile jsIsWhite).reverse)

/-- Does `l` start with `p`? -/
def listStartsWith [DecidableEq α] : List α → List α → Bool
  | _, [] => true
  | [], _ :: _ => false
  | a :: l, b :: p => a = b && listStartsWith l p

/-- Does `l` contain `p` as a contiguous run? -/
def listHasSub [DecidableEq α] (l p : List α) : Bool :=
  match l with
  | [] => listStartsWith [] p
  | _ :: t => listStartsWith l p || listHasSub t p

/-- JS `String.prototype.includes`. -/
def strIncludes (s sub : String) : Bool := listHasSub s.data sub.data

/-- The part of `l` before the first occurrence of `sep`, and the rest after
it (`none` if `sep` does not occur). -/
def splitOnceL [DecidableEq α] (l sep : List α) : Option (List α × List α) :=
  match l with
  | [] => if listStartsWith [] sep then some ([], []) else none
  | a :: t =>
    if listStartsWith l sep then some ([], l.drop sep.length)
    else (splitOnceL t sep).map (fun (pre, post) => (a :: pre, post))

/-- Helper for `splitJS`: repeatedly split off the part before `sep`. -/
def splitAllL [DecidableEq α] (sep : List α) : Nat → List α → List (List α)
  | 0, l => [l]
  | fuel + 1, l =>
    match splitOnceL l sep with
    | none => [l]
    | some (pre, post) => pre :: splitAllL sep fuel post

/-- JS `String.prototype.split` with a non-empty string separator. -/
def splitJS (s sep : String) : List String :=
  (splitAllL sep.data (s.data.length + 1) s.data).map String.mk

/-- Models `s.split(sep)[0]`. -/
def takeBefore (s sep : String) : String :=
  match splitOnceL s.data sep.data with
  | none => s
  | some (pre, _) => String.mk pre

/-- JS string length (UTF-16 code units; all strings here are BMP-only, so
this is the character count). -/
def strLen (s : String) : Nat := s.data.length

/-- JS `parseInt(x, 10)` where `x` may be `undefined` (an out-of-range match
group): `undefined` and non-numeric strings give `NaN`. -/
def parseIntJS : Option String → JSVal
  | none => .jnan
  | some s =>
    let cs := s.data.dropWhile jsIsWhite
    let (neg, cs') :=
      match cs with
      | '-' :: t => (true, t)
      | '+' :: t => (false, t)
      | t => (false, t)
    let ds := cs'.takeWhile isDig
    if ds.isEmpty then .jnan
    else
      let n : Int := ds.foldl (fun a c => a * 10 + ((c.toNat : Int) - 48)) 0
      .jint (if neg then -n else n)

/-- First non-empty ("truthy") string in a list of optional strings, as a
JS `a || b || c || ''` chain. -/
def firstTruthy : List (Option String) → String
  | [] => ""
  | o :: rest =>
    match o with
    | some s => if s = "" then firstTruthy rest else s
    | none => firstTruthy rest

/-- JS truthiness filter on an attribute value: `null` and `""` are falsy. -/
def strTruthy : Option String → Option String
  | some s => if s = "" then none else some s
  | none => none

/-! ## A small backtracking regular-expression engine

JavaScript semantics: leftmost match; alternatives tried left to right;
greedy pieces prefer consuming, lazy pieces prefer not; capture groups
record the last text they matched, unmatched groups are `undefined`. All
patterns used by this code repeat only single-character classes, so
repetition is restricted to character classes. -/

/-- Regular expressions as used by the parser. -/
inductive RE where
  | eps
  | cls (p : Char → Bool)
  | seq (a b : RE)
  | alt (a b : RE)
  | grp (n : Nat) (a : RE)
  | opt (lazyQ : Bool) (a : RE)
  | starCls (lazyQ : Bool) (p : Char → Bool)

/-- Capture-group assignments (group index, captured text). -/
abbrev Groups := List (Nat × String)

/-- Models `group n` of a match result (`none` = `undefined`). -/
def mGrp (g : Groups) (n : Nat) : Option String :=
  (g.find? (fun x => x.1 = n)).map (·.2)

/-- Greedy/lazy run of a character class, in continuation-passing style. -/
def starRun (lazyQ : Bool) (p : Char → Bool) :
    List Char → Groups → (List Char → Groups → Option (List Char × Groups)) →
    Option (List Char × Groups)
  | [], g, k => k [] g
  | c :: cs, g, k =>
    if p c then
      if lazyQ then (k (c :: cs) g).orElse (fun _ => starRun lazyQ p cs g k)
      else (starRun lazyQ p cs g k).orElse (fun _ => k (c :: cs) g)
    else k (c :: cs) g

/-- The matcher: match `r` against a prefix of `cs`, then continue with `k`
(which receives the rest and the captures so far). Backtracking follows
JavaScript preference order. -/
def mre : RE → List Char → Groups →
    (List Char → Groups → Option (List Char × Groups)) →
    Option (List Char × Groups)
  | .eps, cs, g, k => k cs g
  | .cls p, cs, g, k =>
    match cs with
    | [] => none
    | c :: cs' => if p c then k cs' g else none
  | .seq a b, cs, g, k => mre a cs g (fun cs' g' => mre b cs' g' k)
  | .alt a b, cs, g, k => (mre a cs g k).orElse (fun _ => mre b cs g k)
  | .grp n a, cs, g, k =>
    mre a cs g (fun cs' g' =>
      k cs' ((n, String.mk (cs.take (cs.length - cs'.length))) :: g'))
  | .opt lazyQ a, cs, g, k =>
    if lazyQ then (k cs g).orElse (fun _ => mre a cs g k)
    else (mre a cs g k).orElse (fun _ => k cs g)
  | .starCls lazyQ p, cs, g, k => starRun lazyQ p cs g k

/-- Leftmost match of `r` in `cs`: returns (text before the match, rest
after the match, captures). -/
def reSearch (r : RE) (cs : List Char) : Option (List Char × List Char × Groups) :=
  match mre r cs [] (fun rest g => some (rest, g)) with
  | some (rest, g) => some ([], rest, g)
  | none =>
    match cs with
    | [] => none
    | c :: cs' => (reSearch r cs').map (fun (pre, rest, g) => (c :: pre, rest, g))

/-- JS `regex.test(s)` for an unanchored pattern. -/
def reTest (r : RE) (s : String) : Bool := (reSearch r s.data).isSome

/-- JS `regex.test(s)` for a `^…`-anchored pattern (match at the start,
rest arbitrary). -/
def reTestStart (r : RE) (s : String) : Bool :=
  (mre r s.data [] (fun rest g => some (rest, g))).isSome

/-- JS `regex.test(s)` for a `^…$`-anchored pattern. -/
def reTestFull (r : RE) (s : String) : Bool :=
  (mre r s.data [] (fun rest g => if rest.isEmpty then some (rest, g) else none)).isSome

/-- JS `s.match(r)` (no `g` flag): the capture groups of the leftmost
match, or `none` when there is no match. -/
def reMatch (r : RE) (s : String) : Option Groups :=
  (reSearch r s.data).map (fun x => x.2.2)

/-- JS `s.replace(r, '')` (no `g` flag): delete the leftmost match. -/
def replaceFirst (r : RE) (s : String) : String :=
  match reSearch r s.data with
  | none => s
  | some (pre, rest, _) => String.mk (pre ++ rest)

/-- JS `s.replace(r, '')` with the `g` flag: delete every match. All
patterns used this way match at least one character, so each step makes
progress; the fuel only certifies termination. -/
def replaceAllAux (r : RE) : Nat → List Char → List Char
  | 0, cs => cs
  | fuel + 1, cs =>
    match reSearch r cs with
    | none => cs
    | some (pre, rest, _) =>
      if rest.length < cs.length then pre ++ replaceAllAux r fuel rest
      else cs

def replaceAll (r : RE) (s : String) : String :=
  String.mk (replaceAllAux r (s.data.length + 1) s.data)

/-! ### The concrete patterns (`src/constants/regex-patterns.ts` and the
inline literals of `src/event-parser.ts`) -/

def rchar (c : Char) : RE := .cls (fun x => x = c)

/-- A literal string, case-sensitively. -/
def rstr (s : String) : RE := s.data.foldr (fun c r => .seq (rchar c) r) .eps

/-- A literal string under the `i` flag. -/
def rstrCI (s : String) : RE :=
  s.data.foldr (fun c r => .seq (.cls (fun x => toLowerJS x = toLowerJS c)) r) .eps

def rdigit : RE := .cls isDig

/-- Models `\d{1,2}` (greedy: two digits preferred). -/
def rd12 : RE := .alt (.seq rdigit rdigit) rdigit

/-- Models `\d{2}`. -/
def rd2 : RE := .seq rdigit rdigit

/-- Models `\d{4}`. -/
def rd4 : RE := .seq rd2 rd2

/-- Models `\d+`. -/
def rdPlus : RE := .seq rdigit (.starCls false isDig)

/-- Models `\s*`. -/
def rwsStar : RE := .starCls false jsIsWhite

/-- Models `\s+`. -/
def rwsPlus : RE := .seq (.cls jsIsWhite) rwsStar

/-- Models `.` (not a line terminator). -/
def dotCls (c : Char) : Bool :=
  ¬ (c = '\n' ∨ c = '\r' ∨ c = Char.ofNat 0x2028 ∨ c = Char.ofNat 0x2029)

def rseqL : List RE → RE
  | [] => .eps
  | [r] => r
  | r :: rest => .seq r (rseqL rest)

/-- Models `[Сс]` (the Russian "from" marker; the source's `i` flag adds nothing). -/
def cyrS : RE := .cls (fun c => c = 'С' ∨ c = 'с')

/-- Models `TIME_FORMAT: /(\d{1,2}):(\d{2})/` — note: two capture groups only. -/
def TIME_FORMAT : RE := rseqL [.grp 1 rd12, rchar ':', .grp 2 rd2]

/-- Models `RUSSIAN_TIME_FORMAT: /[Сс]\s*(\d{1,2}):(\d{2})\s+до\s+(\d{1,2}):(\d{2})/i`. -/
def RUSSIAN_TIME_FORMAT : RE :=
  rseqL [cyrS, rwsStar, .grp 1 rd12, rchar ':', .grp 2 rd2, rwsPlus,
    rstrCI "до", rwsPlus, .grp 3 rd12, rchar ':', .grp 4 rd2]

/-- Models `(AM|PM)` under the `i` flag. -/
def rAmPm : RE := .alt (rstrCI "AM") (rstrCI "PM")

/-- Models `TIME_WITH_AMPM: /(\d{1,2}):(\d{2})\s*(AM|PM)?.*?(\d{1,2}):(\d{2})\s*(AM|PM)?/i`. -/
def TIME_WITH_AMPM : RE :=
  rseqL [.grp 1 rd12, rchar ':', .grp 2 rd2, rwsStar, .opt false (.grp 3 rAmPm),
    .starCls true dotCls, .grp 4 rd12, rchar ':', .grp 5 rd2, rwsStar,
    .opt false (.grp 6 rAmPm)]

/-- Models `ISO_DATE: /^\d{4}-\d{2}-\d{2}/`. -/
def ISO_DATE : RE := rseqL [rd4, rchar '-', rd2, rchar '-', rd2]

/-- Models `RUSSIAN_MONTHS` (`src/constants/date-constants.ts`). -/
def RUSSIAN_MONTHS : List String :=
  ["января", "февраля", "марта", "апреля", "мая", "июня",
   "июля", "августа", "сентября", "октября", "ноября", "декабря"]

def rMonthAlt : RE :=
  (RUSSIAN_MONTHS.map rstrCI).foldr (fun r acc => .alt r acc) (.cls (fun _ => false))

/-- Models `RUSSIAN_DATE: /(\d{1,2})\s+(января|…|декабря)\s+(\d{4})/i`. -/
def RUSSIAN_DATE : RE :=
  rseqL [.grp 1 rd12, rwsPlus, .grp 2 rMonthAlt, rwsPlus, .grp 3 rd4]

/-- The same pattern built inline in `event-parser.ts` from
`RUSSIAN_MONTHS.join('|')` (used both as a test and for stripping). -/
def russianDatePattern : RE := RUSSIAN_DATE

/-- Models `TIME_IN_TEXT: /\d{1,2}:\d{2}/`. -/
def TIME_IN_TEXT : RE := rseqL [rd12, rchar ':', rd2]

/-- Models `RUSSIAN_TIME_IN_TEXT: /[Сс]\s*\d{1,2}:\d{2}/`. -/
def RUSSIAN_TIME_IN_TEXT : RE := rseqL [cyrS, rwsStar, rd12, rchar ':', rd2]

/-- Models `GENERIC_TITLE_PATTERN: /^\d+\s+(мероприятий?|events?|событий?)/i`. -/
def GENERIC_TITLE_PATTERN : RE :=
  rseqL [rdPlus, rwsPlus,
    .grp 1 (.alt (.seq (rstrCI "мероприяти") (.opt false (rstrCI "й")))
      (.alt (.seq (rstrCI "event") (.opt false (rstrCI "s")))
        (.seq (rstrCI "событи") (.opt false (rstrCI "й")))))]

/-- The inline generic-title pattern `/^\d+\s*мероприяти[ея]$/i`. -/
def genericEventCount : RE :=
  rseqL [rdPlus, rwsStar, rstrCI "мероприяти",
    .cls (fun c => toLowerJS c = 'е' ∨ toLowerJS c = 'я')]

/-- Models `SINGLE_CHARACTER: /^.$/`. -/
def SINGLE_CHARACTER : RE := .cls dotCls

/-- Models `/^[Сс]\s*\d{1,2}:\d{2}/` (inline). -/
def startsCyrTime : RE := RUSSIAN_TIME_IN_TEXT

/-- Models `/^\d{1,2}:\d{2}/` (inline). -/
def startsTime : RE := TIME_IN_TEXT

/-- Models `/\d{1,2}:\d{2}–\d{1,2}:\d{2}/` (inline; also used `^`-anchored). -/
def dashTimeRange : RE := rseqL [rd12, rchar ':', rd2, rchar '–', rd12, rchar ':', rd2]

/-- Models `RUSSIAN_FULL_NAME: /^[А-ЯЁ][а-яё]+\s+[А-ЯЁ][а-яё]+$/` (no `i` flag). -/
def cyrUpperCls (c : Char) : Bool := ('А' ≤ c ∧ c ≤ 'Я') ∨ c = 'Ё'

def cyrLowerCls (c : Char) : Bool := ('а' ≤ c ∧ c ≤ 'я') ∨ c = 'ё'

def RUSSIAN_FULL_NAME : RE :=
  rseqL [.cls cyrUpperCls, .seq (.cls cyrLowerCls) (.starCls false cyrLowerCls),
    rwsPlus, .cls cyrUpperCls, .seq (.cls cyrLowerCls) (.starCls false cyrLowerCls)]

/-- Models `ENGLISH_FULL_NAME: /^[A-Z][a-z]+\s+[A-Z][a-z]+$/`. -/
def ENGLISH_FULL_NAME : RE :=
  rseqL [.cls (fun c => 'A' ≤ c ∧ c ≤ 'Z'),
    .seq (.cls (fun c => 'a' ≤ c ∧ c ≤ 'z')) (.starCls false (fun c => 'a' ≤ c ∧ c ≤ 'z')),
    rwsPlus, .cls (fun c => 'A' ≤ c ∧ c ≤ 'Z'),
    .seq (.cls (fun c => 'a' ≤ c ∧ c ≤ 'z')) (.starCls false (fun c => 'a' ≤ c ∧ c ≤ 'z'))]

/-- Models `/(?:event[-_]?color|color)[-_]?(\d+)/i` (color-encoding class names). -/
def colorClassRE : RE :=
  rseqL [.alt (rseqL [rstrCI "event", .opt false (.cls (fun c => c = '-' ∨ c = '_')),
      rstrCI "color"]) (rstrCI "color"),
    .opt false (.cls (fun c => c = '-' ∨ c = '_')), .grp 1 rdPlus]

/-- Models `/background(?:-color)?:\s*([^;]+)/i`. -/
def bgStyleRE : RE :=
  rseqL [rstrCI "background", .opt false (rstrCI "-color"), rchar ':', rwsStar,
    .grp 1 (.seq (.cls (fun c => c ≠ ';')) (.starCls false (fun c => c ≠ ';')))]

/-- Models `/border(?:-left|-top|-right|-bottom)?(?:-color)?:\s*([^;]+)/i`. -/
def borderStyleRE : RE :=
  rseqL [rstrCI "border",
    .opt false (.alt (rstrCI "-left") (.alt (rstrCI "-top")
      (.alt (rstrCI "-right") (rstrCI "-bottom")))),
    .opt false (rstrCI "-color"), rchar ':', rwsStar,
    .grp 1 (.seq (.cls (fun c => c ≠ ';')) (.starCls false (fun c => c ≠ ';')))]

/-- Models `/rgba?\((\d+),\s*(\d+),\s*(\d+)/` (case-sensitive). -/
def rgbRE : RE :=
  rseqL [rstr "rgb", .opt false (rchar 'a'), rchar '(', .grp 1 rdPlus,
    rchar ',', rwsStar, .grp 2 rdPlus, rchar ',', rwsStar, .grp 3 rdPlus]

/-- Models `TEXT_SEPARATORS` (`src/constants/regex-patterns.ts`). -/
def TEXT_SEPARATORS : List String := [",", ";", "|", "–", "-", "—"]

/-! ## JavaScript `Date`

A `Date` is either invalid (`NaN` timestamp) or a canonical local civil
date plus the milliseconds elapsed within that day. Civil/epoch-day
conversions use the standard era-based algorithms, so out-of-range
constructor fields (e.g. `new Date(2025, 1, 31)`) roll over exactly as in
JavaScript. -/

/-- Days since 1970-01-01 of civil date `(y, m, d)` with `m ∈ 1..12`
(`d` may be out of range; it simply offsets). -/
def daysFromCivil (y m d : Int) : Int :=
  let y' := if m ≤ 2 then y - 1 else y
  let era := Int.fdiv y' 400
  let yoe := y' - era * 400
  let mp := Int.emod (m + 9) 12
  let doy := Int.fdiv (153 * mp + 2) 5 + d - 1
  let doe := yoe * 365 + Int.fdiv yoe 4 - Int.fdiv yoe 100 + doy
  era * 146097 + doe - 719468

/-- Civil date `(y, m, d)` (with `m ∈ 1..12`, `d` in range) of an epoch-day
count. -/
def civilFromDays (z : Int) : Int × Int × Int :=
  let z' := z + 719468
  let era := Int.fdiv z' 146097
  let doe := z' - era * 146097
  let yoe := Int.fdiv (doe - Int.fdiv doe 1460 + Int.fdiv doe 36524 - Int.fdiv doe 146096) 365
  let y := yoe + era * 400
  let doy := doe - (365 * yoe + Int.fdiv yoe 4 - Int.fdiv yoe 100)
  let mp := Int.fdiv (5 * doy + 2) 153
  let d := doy - Int.fdiv (153 * mp + 2) 5 + 1
  let m := if mp < 10 then mp + 3 else mp - 9
  (if m ≤ 2 then y + 1 else y, m, d)

/-- A JavaScript `Date`: invalid, or year / month (0-based, canonical) /
day (1-based, canonical) / milliseconds within the day. -/
inductive JSDate where
  | invalid
  | valid (y : Int) (mo : Int) (d : Int) (ms : Int)
deriving DecidableEq, Repr

namespace JSDate

/-- Models `new Date(y, mo, d)`: two-digit years map to 19xx, months and days roll
over, dates beyond the representable ±1e8-day range are invalid. -/
def mkJSDate (y mo d : Int) : JSDate :=
  let y1 := if 0 ≤ y ∧ y ≤ 99 then y + 1900 else y
  let days := daysFromCivil (y1 + Int.fdiv mo 12) (Int.emod mo 12 + 1) 1 + (d - 1)
  if days.natAbs > 100000000 then .invalid
  else
    match civilFromDays days with
    | (yy, mm, dd) => .valid yy (mm - 1) dd 0

/-- Models `new Date(y, mo, d)` from possibly-`NaN` components. -/
def mkJSDateV (y mo d : JSVal) : JSDate :=
  match y, mo, d with
  | .jint a, .jint b, .jint c => mkJSDate a b c
  | _, _, _ => .invalid

/-- Epoch-day count of a valid date's civil fields. -/
def epochDays : JSDate → Int
  | invalid => 0
  | valid y mo d _ => daysFromCivil y (mo + 1) d

/-- Models `d.getFullYear()` (only ever read on non-`NaN` dates here). -/
def getFullYear : JSDate → Int
  | invalid => 0
  | valid y _ _ _ => y

/-- Models `setDate(getDate() + n)` (used for "tomorrow"). -/
def addDaysJS : JSDate → Int → JSDate
  | invalid, _ => invalid
  | valid y mo d ms, n =>
    match civilFromDays (daysFromCivil y (mo + 1) d + n) with
    | (yy, mm, dd) => valid yy (mm - 1) dd ms

/-- JS `Date` comparison `a <= b` (timestamp order; `false` when either is
invalid, as `NaN` comparisons are). -/
def jsDateLe : JSDate → JSDate → Bool
  | valid y mo d ms, valid y' mo' d' ms' =>
    let a := daysFromCivil y (mo + 1) d
    let b := daysFromCivil y' (mo' + 1) d'
    decide (a < b) || (decide (a = b) && decide (ms ≤ ms'))
  | _, _ => false

def pad2 (n : Int) : String :=
  if n < 10 then "0" ++ toString n else toString n

def weekdayNames : List String := ["Sun", "Mon", "Tue", "Wed", "Thu", "Fri", "Sat"]

def monthNamesEn : List String :=
  ["Jan", "Feb", "Mar", "Apr", "May", "Jun", "Jul", "Aug", "Sep", "Oct", "Nov", "Dec"]

/-- Models `d.toDateString()`, e.g. `"Wed Nov 26 2025"`. -/
def toDateString : JSDate → String
  | invalid => "Invalid Date"
  | valid y mo d _ =>
    let days := daysFromCivil y (mo + 1) d
    let wd := (weekdayNames.get? (Int.emod (days + 4) 7).toNat).getD ""
    let mn := (monthNamesEn.get? mo.toNat).getD ""
    wd ++ " " ++ mn ++ " " ++ pad2 d ++ " " ++ toString y

end JSDate

/-! ## `src/date-utils.ts` -/

/-- Models `isValidDate(date)`: non-null, a real (non-`NaN`) date, year within
`[MIN_YEAR, MAX_YEAR] = [1900, 2100]`. -/
def isValidDate : Option JSDate → Bool
  | none => false
  | some .invalid => false
  | some (.valid y _ _ _) => decide (1900 ≤ y) && decide (y ≤ 2100)

/-- Models `isValidDate` applied to a non-null `Date` expression. -/
def isValidDateD (d : JSDate) : Bool := isValidDate (some d)

/-- Models `normalizeDate(date)`: set the time to local midnight. -/
def normalizeDate : JSDate → JSDate
  | .invalid => .invalid
  | .valid y mo d _ => .valid y mo d 0

/-- Models `createNormalizedDate(input)` for a string input: parse with the host's
`Date` constructor, validate, normalize (`null` on failure). -/
def createNormalizedDate (jsParse : String → JSDate) (s : String) : Option JSDate :=
  let date := jsParse s
  if isValidDateD date then some (normalizeDate date) else none

/-! ## `src/types.ts` -/

/-- Models `CalendarEvent`. `startMinutes`, `endMinutes` and `duration` are JS
numbers (`JSVal`), `color` is the optional color string. -/
structure CalendarEvent where
  title : String
  startMinutes : JSVal
  endMinutes : JSVal
  date : JSDate
  duration : JSVal
  color : Option String
deriving DecidableEq, Repr

/-- Models `ActivitySummary`. -/
structure ActivitySummary where
  name : String
  totalMinutes : JSVal
  count : Nat
  formattedDuration : String
  color : Option String
deriving DecidableEq, Repr

/-! ## `src/constants/colors.ts` -/

def COLOR_MAP : List (String × String) :=
  [("1", "#a4bdfc"), ("2", "#7ae7bf"), ("3", "#dbadff"), ("4", "#ff887c"),
   ("5", "#fbd75b"), ("6", "#ffb878"), ("7", "#46d6db"), ("8", "#e1e1e1"),
   ("9", "#5484ed"), ("10", "#51b749"), ("11", "#dc2127"), ("12", "#ff9800"),
   ("13", "#9c27b0"), ("14", "#00bcd4"), ("15", "#4caf50"), ("16", "#f44336"),
   ("17", "#2196f3"), ("18", "#ffc107"), ("19", "#795548"), ("20", "#607d8b"),
   ("21", "#00ff00")]

def COLOR_NAMES : List (String × String) :=
  [("#a4bdfc", "Lavender"), ("#7ae7bf", "Sage"), ("#dbadff", "Grape"),
   ("#ff887c", "Flamingo"), ("#fbd75b", "Banana"), ("#ffb878", "Tangerine"),
   ("#46d6db", "Peacock"), ("#e1e1e1", "Graphite"), ("#5484ed", "Blueberry"),
   ("#51b749", "Basil"), ("#dc2127", "Tomato"), ("#ff9800", "Orange"),
   ("#9c27b0", "Purple"), ("#00bcd4", "Cyan"), ("#4caf50", "Green"),
   ("#f44336", "Red"), ("#2196f3", "Blue"), ("#ffc107", "Amber"),
   ("#795548", "Brown"), ("#607d8b", "Blue Grey")]

def DEFAULT_COLOR : String := "#e1e1e1"

def DEFAULT_COLOR_NAME : String := "Graphite"

/-- JS object-literal lookup `table[key]` (`none` = `undefined`). -/
def tableGet (table : List (String × String)) (key : String) : Option String :=
  (table.find? (fun x => x.1 = key)).map (·.2)

/-! ## The DOM model

An element carries its attributes, class attribute, direct text-node
contents, host-computed style colors, client-rectangle bounds, and child
elements. The document is a single tree; an element handed to the parser
is represented by its ancestor chain (the element first, the root last),
so `parentElement` walks are list traversals. -/

inductive Elem where
  | mk (attrs : List (String × String)) (className : String)
      (ownTexts : List String)
      (bgColor borderLeftColor borderTopColor borderColor : String)
      (rectLeft rectRight : Int)
      (kids : List Elem)

namespace Elem

def attrsOf : Elem → List (String × String)
  | mk a _ _ _ _ _ _ _ _ _ => a

def classNameOf : Elem → String
  | mk _ c _ _ _ _ _ _ _ _ => c

def ownTextsOf : Elem → List String
  | mk _ _ t _ _ _ _ _ _ _ => t

def bgColorOf : Elem → String
  | mk _ _ _ b _ _ _ _ _ _ => b

def borderLeftColorOf : Elem → String
  | mk _ _ _ _ b _ _ _ _ _ => b

def borderTopColorOf : Elem → String
  | mk _ _ _ _ _ b _ _ _ _ => b

def borderColorOf : Elem → String
  | mk _ _ _ _ _ _ b _ _ _ => b

def rectLeftOf : Elem → Int
  | mk _ _ _ _ _ _ _ l _ _ => l

def rectRightOf : Elem → Int
  | mk _ _ _ _ _ _ _ _ r _ => r

def kidsOf : Elem → List Elem
  | mk _ _ _ _ _ _ _ _ _ k => k

/-- Models `getAttribute(name)` (`none` = `null`). -/
def getAttr (e : Elem) (name : String) : Option String :=
  ((attrsOf e).find? (fun x => x.1 = name)).map (·.2)

/-- Models `classList` (the class attribute split on spaces). -/
def classListOf (e : Elem) : List String :=
  (splitJS (classNameOf e) " ").filter (fun s => s ≠ "")

mutual

/-- Models `textContent`: concatenated text of the subtree (direct text first). -/
def textContent : Elem → String
  | .mk _ _ own _ _ _ _ _ _ kids => String.join own ++ kidsText kids

def kidsText : List Elem → String
  | [] => ""
  | k :: ks => textContent k ++ kidsText ks

end

mutual

/-- All text-node contents in the subtree (`TreeWalker` with `SHOW_TEXT`),
in document order (direct text of a node first, then its children). -/
def subtreeTexts : Elem → List String
  | .mk _ _ own _ _ _ _ _ _ kids => own ++ kidsSubtreeTexts kids

def kidsSubtreeTexts : List Elem → List String
  | [] => []
  | k :: ks => subtreeTexts k ++ kidsSubtreeTexts ks

end

mutual

/-- Strict descendants in document order (`querySelectorAll('*')`). -/
def descendantsOf : Elem → List Elem
  | .mk _ _ _ _ _ _ _ _ _ kids => descendantsOfKids kids

def descendantsOfKids : List Elem → List Elem
  | [] => []
  | k :: ks => k :: descendantsOf k ++ descendantsOfKids ks

end

/-- Models `querySelectorAll` restricted to the simple selectors this code uses:
filter the strict descendants by a predicate, in document order. -/
def qselAll (e : Elem) (p : Elem → Bool) : List Elem :=
  (descendantsOf e).filter p

/-- Models `querySelector`: first matching strict descendant. -/
def qsel (e : Elem) (p : Elem → Bool) : Option Elem :=
  (descendantsOf e).find? p

mutual

/-- Ancestor chains (element first, root last) of every element in the
subtree, in document order, given the chain of ancestors above it. -/
def chainsUnder (anc : List Elem) : Elem → List (List Elem)
  | .mk a c t b1 b2 b3 b4 rl rr kids =>
    let self := Elem.mk a c t b1 b2 b3 b4 rl rr kids
    (self :: anc) :: chainsUnderKids (self :: anc) kids

def chainsUnderKids (anc : List Elem) : List Elem → List (List Elem)
  | [] => []
  | k :: ks => chainsUnder anc k ++ chainsUnderKids anc ks

end

/-- Models `[name]`: attribute-presence selector. -/
def hasAttrSel (name : String) (e : Elem) : Bool :=
  (attrsOf e).any (fun x => x.1 = name)

/-- Models `[name="value"]`. -/
def attrEqSel (name value : String) (e : Elem) : Bool :=
  getAttr e name = some value

/-- Models `.cls`. -/
def hasClassSel (c : String) (e : Elem) : Bool :=
  (classListOf e).contains c

/-- Models `[class*="sub"]`. -/
def classSubstrSel (sub : String) (e : Elem) : Bool :=
  strIncludes (classNameOf e) sub

end Elem

/-- The host environment: the document tree, today's date, the host's
string `Date` parser, and the `date` URL query parameter. -/
structure Env where
  doc : Elem
  today : JSDate
  jsParse : String → JSDate
  dateParam : Option String

/-- All elements of the document (the root and its descendants). -/
def docElems (env : Env) : List Elem :=
  env.doc :: Elem.descendantsOf env.doc

/-- All elements paired with their ancestor chains, document order. -/
def docChains (env : Env) : List (List Elem) :=
  Elem.chainsUnder [] env.doc

/-- A placeholder element (chains handed to the parser are never empty). -/
def defaultElem : Elem := .mk [] "" [] "" "" "" "" 0 0 []

/-- JS `String(x)` for a `number | null` value. -/
def jsvalToString : JSVal → String
  | .jint n => toString n
  | .jnan => "NaN"
  | .jnull => "null"

/-! ## `src/event-parser.ts` (`EventParser`) -/

namespace EventParser

open JSVal JSDate Elem

/-- Models `getColorFromId(colorId)`: normalize the id through `parseInt` /
`String`, then look it up in `COLOR_MAP` (`null` when absent). -/
def getColorFromId (colorId : String) : Option String :=
  let normalizedId := jsvalToString (parseIntJS (some colorId))
  tableGet COLOR_MAP normalizedId

/-- Models `x.toString(16)` padded to two digits, for `x ∈ 0..255`. -/
def hexDigitCh (n : Nat) : Char :=
  if n < 10 then Char.ofNat (48 + n) else Char.ofNat (87 + n)

def toHex2 (x : Int) : String :=
  let n := x.toNat
  if n < 16 then String.mk ['0', hexDigitCh n]
  else String.mk [hexDigitCh (n / 16), hexDigitCh (n % 16)]

/-- The named-color table inlined in `rgbToHex`. -/
def namedColors : List (String × String) :=
  [("red", "#ff0000"), ("green", "#008000"), ("blue", "#0000ff"),
   ("yellow", "#ffff00"), ("orange", "#ffa500"), ("purple", "#800080"),
   ("pink", "#ffc0cb"), ("cyan", "#00ffff"), ("magenta", "#ff00ff"),
   ("lime", "#00ff00"), ("navy", "#000080"), ("teal", "#008080"),
   ("maroon", "#800000"), ("olive", "#808000")]

/-- Models `rgbToHex(color)`: hex strings normalized (3-digit expanded, 6-digit
kept, others rejected), `rgb()`/`rgba()` converted when components are in
range, a small named-color set, otherwise `null`. -/
def rgbToHex (color : String) : Option String :=
  if color = "" then none
  else
    let color := trimJS color
    if listStartsWith color.data ['#'] then
      let hex := String.mk (color.data.drop 1)
      if strLen hex = 3 then some (String.mk ('#' :: hex.data.foldr (fun c acc => c :: c :: acc) []))
      else if strLen hex = 6 then some ("#" ++ hex)
      else none
    else
      match reMatch rgbRE color with
      | some g =>
        match (parseIntJS (mGrp g 1)).toNum, (parseIntJS (mGrp g 2)).toNum,
            (parseIntJS (mGrp g 3)).toNum with
        | some r, some gr, some b =>
          if 0 ≤ r ∧ r ≤ 255 ∧ 0 ≤ gr ∧ gr ≤ 255 ∧ 0 ≤ b ∧ b ≤ 255 then
            some ("#" ++ toHex2 r ++ toHex2 gr ++ toHex2 b)
          else tableGet namedColors (strLower color)
        | _, _, _ => tableGet namedColors (strLower color)
      | none => tableGet namedColors (strLower color)

/-- Models `convertTo24Hour(hour, minute, amPm)`. -/
def convertTo24Hour (hour minute : JSVal) (amPm : Option String) : JSVal :=
  let h24 :=
    if amPm = some "PM" ∧ ¬ hour = JSVal.jint 12 then hour.jadd (.jint 12)
    else if amPm = some "AM" ∧ hour = JSVal.jint 12 then JSVal.jint 0
    else hour
  (h24.jmul (.jint 60)).jadd minute

/-- Models `timeToMinutes(timeStr)` (`null` when no `H:MM` token is present). -/
def timeToMinutes (timeStr : String) : JSVal :=
  match reMatch TIME_FORMAT timeStr with
  | some g => ((parseIntJS (mGrp g 1)).jmul (.jint 60)).jadd (parseIntJS (mGrp g 2))
  | none => JSVal.jnull

/-- Models `parseTime(timeText, element)`: data attributes, then the Russian
`С H:MM до H:MM` dialect, then the generic two-times pattern with optional
AM/PM, then a fallback match of `TIME_FORMAT` against the element's
`aria-label` (which has only two capture groups, so the "end" groups 3 and
4 read there are `undefined` and `parseInt` yields `NaN`). -/
def parseTime (timeText : String) (element : Elem) : JSVal × JSVal :=
  match strTruthy (element.getAttr "data-start-time"),
      strTruthy (element.getAttr "data-end-time") with
  | some startTime, some endTime => (timeToMinutes startTime, timeToMinutes endTime)
  | _, _ =>
    match reMatch RUSSIAN_TIME_FORMAT timeText with
    | some g =>
      (((parseIntJS (mGrp g 1)).jmul (.jint 60)).jadd (parseIntJS (mGrp g 2)),
       ((parseIntJS (mGrp g 3)).jmul (.jint 60)).jadd (parseIntJS (mGrp g 4)))
    | none =>
      match reMatch TIME_WITH_AMPM timeText with
      | some g =>
        (convertTo24Hour (parseIntJS (mGrp g 1)) (parseIntJS (mGrp g 2))
            ((mGrp g 3).map strUpper),
         convertTo24Hour (parseIntJS (mGrp g 4)) (parseIntJS (mGrp g 5))
            ((mGrp g 6).map strUpper))
      | none =>
        let ariaLabel := (element.getAttr "aria-label").getD ""
        match reMatch TIME_FORMAT ariaLabel with
        | some g =>
          (((parseIntJS (mGrp g 1)).jmul (.jint 60)).jadd (parseIntJS (mGrp g 2)),
           ((parseIntJS (mGrp g 3)).jmul (.jint 60)).jadd (parseIntJS (mGrp g 4)))
        | none => (JSVal.jnull, JSVal.jnull)

/-- Models `isValidTitle(candidate)`. -/
def isValidTitle (candidate : String) : Bool :=
  if candidate = "" ∨ strLen candidate ≤ 1 then false
  else if reTestStart GENERIC_TITLE_PATTERN candidate then false
  else if reTest RUSSIAN_TIME_IN_TEXT candidate ∨ reTest TIME_IN_TEXT candidate ∨
      reTestStart dashTimeRange candidate then false
  else if strIncludes candidate "Место" ∨ strIncludes candidate "цвет" ∨
      reTest russianDatePattern candidate then false
  else if reTestFull SINGLE_CHARACTER candidate then false
  else true

/-- Models `extractTitleFromText(text)`: comma-split pass, then strip the time and
date patterns and try each separator-delimited part, then the whole
remainder. -/
def extractTitleFromText (text : String) : Option String :=
  if text = "" then none
  else
    let commaResult : Option (Option String) :=
      if strIncludes text "," then
        let parts := splitJS text ","
        if parts.length < 2 then some none
        else
          match (parts.drop 1).find? (fun p => isValidTitle (trimJS p)) with
          | some p => some (some (trimJS p))
          | none => none
      else none
    match commaResult with
    | some r => r
    | none =>
      let withoutTime := trimJS (replaceAll russianDatePattern
        (replaceFirst TIME_FORMAT
          (replaceAll dashTimeRange
            (replaceFirst RUSSIAN_TIME_FORMAT text))))
      match TEXT_SEPARATORS.findSome? (fun sep =>
          if strIncludes withoutTime sep then
            ((splitJS withoutTime sep).find? (fun p => isValidTitle (trimJS p))).map trimJS
          else none) with
      | some t => some t
      | none => if isValidTitle withoutTime then some withoutTime else none

/-- The shared Russian-date branch (`new Date(year, month, day)` guarded by
the day/year range checks), as written identically in
`extractDateFromTimeText` and `parseDateString`. -/
def russianDateOf (g : Groups) : Option JSDate :=
  let day := parseIntJS (mGrp g 1)
  let month : Int :=
    match mGrp g 2 with
    | some s =>
      match RUSSIAN_MONTHS.findIdx? (fun m => strLower m = strLower s) with
      | some i => (i : Int)
      | none => -1
    | none => -1
  let year := parseIntJS (mGrp g 3)
  if 0 ≤ month ∧ day.jgt (.jint 0) ∧ day.jle (.jint 31) ∧
      year.jge (.jint 1900) ∧ year.jle (.jint 2100) then
    let date := mkJSDateV year (.jint month) day
    let normalized := normalizeDate date
    if isValidDateD normalized then some normalized else none
  else none

/-- Models `extractDateFromTimeText(timeText)`. -/
def extractDateFromTimeText (timeText : String) : Option JSDate :=
  if timeText = "" then none
  else
    match reMatch RUSSIAN_DATE timeText with
    | some g => russianDateOf g
    | none => none

/-- Models `parseDateString(dateStr)`. -/
def parseDateString (env : Env) (dateStr : String) : Option JSDate :=
  if reTest RUSSIAN_TIME_IN_TEXT dateStr ∨ reTest TIME_IN_TEXT dateStr then none
  else
    match createNormalizedDate env.jsParse dateStr with
    | some d => some d
    | none =>
      if strIncludes dateStr "Today" ∨ strIncludes dateStr "Сегодня" then some env.today
      else if strIncludes dateStr "Tomorrow" ∨ strIncludes dateStr "Завтра" then
        some (env.today.addDaysJS 1)
      else
        match reMatch RUSSIAN_DATE dateStr with
        | some g => russianDateOf g
        | none => none

/-- The `data-date` parse used both for event ancestors and week-view
column headers: ISO `YYYY-MM-DD` split, else the generic parse; validated
and normalized. -/
def dataDateParse (env : Env) (dataDate : String) : Option JSDate :=
  let date : Option JSDate :=
    if reTestStart ISO_DATE dataDate then
      let parts := splitJS dataDate "-"
      some (mkJSDateV (parseIntJS (parts.get? 0))
        ((parseIntJS (parts.get? 1)).jsub (.jint 1)) (parseIntJS (parts.get? 2)))
    else createNormalizedDate env.jsParse dataDate
  match date with
  | some d => if isValidDateD d then some (normalizeDate d) else none
  | none => none

/-- The ancestor-attribute phase of `extractDate`: `data-date` first, then
`data-day` / `data-start-time` / `aria-label` through `parseDateString`. -/
def extractDateFromAttrs (env : Env) : List Elem → Option JSDate
  | [] => none
  | el :: rest =>
    let afterDataDate : Option JSDate :=
      let dateAttr := firstTruthy
        [el.getAttr "data-day", el.getAttr "data-start-time", el.getAttr "aria-label"]
      if dateAttr ≠ "" then
        match parseDateString env dateAttr with
        | some parsed =>
          if isValidDate (some parsed) then some (normalizeDate parsed)
          else extractDateFromAttrs env rest
        | none => extractDateFromAttrs env rest
      else extractDateFromAttrs env rest
    match strTruthy (el.getAttr "data-date") with
    | some dd =>
      match dataDateParse env dd with
      | some d => some d
      | none => afterDataDate
    | none => afterDataDate

/-- Models `extractDate(element)`: ancestor attributes, week-view column headers
by horizontal position, the `date` URL parameter, then today. -/
def extractDate (env : Env) (chain : List Elem) : JSDate :=
  match extractDateFromAttrs env chain with
  | some d => d
  | none =>
    let weekColumns := (docElems env).filter (fun c =>
      attrEqSel "role" "columnheader" c && hasAttrSel "data-date" c)
    let geo : Option JSDate :=
      if weekColumns.isEmpty then none
      else
        let eventLeft := (chain.headD defaultElem).rectLeftOf
        weekColumns.findSome? (fun col =>
          if decide (col.rectLeftOf ≤ eventLeft) && decide (eventLeft ≤ col.rectRightOf) then
            match strTruthy (col.getAttr "data-date") with
            | some ds => dataDateParse env ds
            | none => none
          else none)
    match geo with
    | some d => d
    | none =>
      match strTruthy env.dateParam with
      | some dp =>
        match createNormalizedDate env.jsParse dp with
        | some d => if isValidDate (some d) then d else normalizeDate env.today
        | none => normalizeDate env.today
      | none => normalizeDate env.today

/-- Method 1a of `extractColor`: `data-color-id` through the palette. -/
def tryDataColorId (el : Elem) : Option String :=
  match strTruthy (el.getAttr "data-color-id") with
  | some id => getColorFromId id
  | none => none

/-- Method 1b: the raw `data-color` attribute, returned verbatim. -/
def tryDataColor (el : Elem) : Option String := strTruthy (el.getAttr "data-color")

/-- Method 2: `…color-<id>` class names through the palette. -/
def tryColorClass (el : Elem) : Option String :=
  (classListOf el).findSome? (fun cls =>
    match reMatch colorClassRE cls with
    | some g =>
      match mGrp g 1 with
      | some colorId => getColorFromId colorId
      | none => none
    | none => none)

/-- The `styleColor` local of method 3: computed border color if not
transparent/default, else computed background color. -/
def styleColorOf (el : Elem) : String :=
  let bgColor := el.bgColorOf
  let borderColor := firstTruthy
    [some el.borderLeftColorOf, some el.borderTopColorOf, some el.borderColorOf]
  if borderColor ≠ "" ∧ borderColor ≠ "rgba(0, 0, 0, 0)" ∧
      borderColor ≠ "transparent" ∧ borderColor ≠ "rgb(0, 0, 0)" ∧
      borderColor ≠ "rgb(255, 255, 255)" then borderColor
  else bgColor

/-- The guard method 3 applies to `styleColor` before converting: truthy
and not one of eight exact no-signal/white/black spellings. -/
def styleNotBlocked (s : String) : Prop :=
  s ≠ "" ∧ s ≠ "rgba(0, 0, 0, 0)" ∧ s ≠ "transparent" ∧
  s ≠ "rgb(255, 255, 255)" ∧ s ≠ "rgb(0, 0, 0)" ∧ s ≠ "#ffffff" ∧
  s ≠ "#fff" ∧ s ≠ "#000000" ∧ s ≠ "#000"

instance : DecidablePred styleNotBlocked := fun s => by unfold styleNotBlocked; infer_instance

/-- Method 3: computed border color (if not transparent/default) or
background color, converted through `rgbToHex`. -/
def tryComputed (el : Elem) : Option String :=
  let styleColor := styleColorOf el
  if styleNotBlocked styleColor then rgbToHex styleColor
  else none

/-- The value regex-extracted from an inline `style` attribute
(background first, then border), trimmed. -/
def inlineStyleColor (el : Elem) : Option String :=
  match strTruthy (el.getAttr "style") with
  | none => none
  | some inlineStyle =>
    match (reMatch bgStyleRE inlineStyle).orElse (fun _ => reMatch borderStyleRE inlineStyle) with
    | none => none
    | some g => (mGrp g 1).map trimJS

/-- The guard method 4 applies: truthy and not one of four exact
white/black hex spellings. -/
def inlineNotBlocked (c : String) : Prop :=
  c ≠ "" ∧ c ≠ "#ffffff" ∧ c ≠ "#fff" ∧ c ≠ "#000000" ∧ c ≠ "#000"

instance : DecidablePred inlineNotBlocked := fun c => by unfold inlineNotBlocked; infer_instance

/-- Method 4: the inline-style value, converted when `rgbToHex` applies and
verbatim otherwise, guarded against four exact white/black spellings. -/
def tryInline (el : Elem) : Option String :=
  match inlineStyleColor el with
  | none => none
  | some color =>
    let hexColor := match rgbToHex color with | some h => h | none => color
    if inlineNotBlocked hexColor then some hexColor
    else none

/-- Methods 1–4 on one scanned element, in source order. -/
def tryElem (el : Elem) : Option String :=
  (tryDataColorId el).orElse (fun _ =>
    (tryDataColor el).orElse (fun _ =>
      (tryColorClass el).orElse (fun _ =>
        (tryComputed el).orElse (fun _ => tryInline el))))

/-- Method 5's per-ancestor step: `data-color-id` and color classes only. -/
def tryAncestor (el : Elem) : Option String :=
  (tryDataColorId el).orElse (fun _ => tryColorClass el)

/-- Models `extractColor(element)`: the element and all its descendants through
methods 1–4, then up to `MAX_PARENT_DEPTH = 3` ancestors through method 5. -/
def extractColor (chain : List Elem) : Option String :=
  let element := chain.headD defaultElem
  let allElements := element :: descendantsOf element
  match allElements.findSome? tryElem with
  | some c => some c
  | none => ((chain.drop 1).take 3).findSome? tryAncestor

/-- The first `querySelector` cascade for time-bearing elements:
`[data-time]`, `.event-time`, `[class*="time"]`. -/
def timeElementOf (el : Elem) : Option Elem :=
  (el.qsel (hasAttrSel "data-time")).orElse (fun _ =>
    (el.qsel (hasClassSel "event-time")).orElse (fun _ =>
      el.qsel (classSubstrSel "time")))

/-- The ancestor walk collecting the first time-bearing text and the first
non-empty `aria-label` (`parseEventElement`, first `while` loop). -/
def findTimeAria : List Elem → String → String → String × String
  | [], t, a => (t, a)
  | el :: rest, t, a =>
    if t ≠ "" ∧ a ≠ "" then (t, a)
    else
      let t' :=
        if t = "" then
          let candidate := firstTruthy
            [(timeElementOf el).map (fun te => trimJS (textContent te)),
             el.getAttr "aria-label", el.getAttr "title",
             some (trimJS (textContent el))]
          if candidate ≠ "" ∧ (reTest TIME_IN_TEXT candidate ∨ reTest RUSSIAN_TIME_IN_TEXT candidate)
          then candidate else t
        else t
      let a' := if a = "" then (strTruthy (el.getAttr "aria-label")).getD a else a
      findTimeAria rest t' a'

/-- The `data-event-title` attribute / title-element ancestor walk. -/
def titleFromAttrs : List Elem → Option String
  | [] => none
  | el :: rest =>
    match strTruthy (el.getAttr "data-event-title") with
    | some t => some t
    | none =>
      match (el.qsel (hasAttrSel "data-event-title")).orElse (fun _ =>
          el.qsel (hasClassSel "event-title")) with
      | some titleElement =>
        let t := firstTruthy
          [some (trimJS (textContent titleElement)), titleElement.getAttr "title"]
        if t ≠ "" then some t else titleFromAttrs rest
      | none => titleFromAttrs rest

/-- The raw-`textContent` ancestor walk (split before the first comma and
Russian "from" markers, reject times and generic placeholders). -/
def titleFromTextContent : List Elem → Option String
  | [] => none
  | el :: rest =>
    let textC := trimJS (textContent el)
    if textC ≠ "" ∧ ¬ reTestStart startsCyrTime textC then
      let candidate := trimJS (takeBefore (takeBefore (takeBefore textC ",") "С ") "с ")
      if candidate ≠ "" ∧ strLen candidate > 0 ∧ ¬ reTestStart startsTime candidate ∧
          ¬ reTestFull genericEventCount candidate then
        some candidate
      else titleFromTextContent rest
    else titleFromTextContent rest

/-- The validity test applied to a raw text fragment in the deep search
(source lines 190–200). -/
def directTitleOk (trimmed : String) : Bool :=
  trimmed ≠ "" ∧ strLen trimmed > 2 ∧
  ¬ reTestFull genericEventCount trimmed ∧
  ¬ reTestStart startsTime trimmed ∧
  ¬ reTestStart startsCyrTime trimmed ∧
  ¬ reTestStart dashTimeRange trimmed ∧
  ¬ strIncludes trimmed "Место" ∧
  ¬ strIncludes trimmed "цвет" ∧
  ¬ reTest russianDatePattern trimmed ∧
  ¬ reTestFull RUSSIAN_FULL_NAME trimmed ∧
  ¬ reTestFull ENGLISH_FULL_NAME trimmed

/-- One level of the deep title search: all descendant `textContent`s plus
all subtree text nodes, then the parent's `aria-label`/`title`. -/
def deepTitleOf (el : Elem) (parent? : Option Elem) : Option String :=
  let allTextNodes := ((descendantsOf el).map (fun e => trimJS (textContent e))).filter
    (fun t => t ≠ "" ∧ strLen t > 0)
  let directTexts := ((subtreeTexts el).map trimJS).filter (fun t => t ≠ "" ∧ strLen t > 0)
  let allTexts := allTextNodes ++ directTexts
  match allTexts.findSome? (fun text =>
      let direct : Option String :=
        let trimmed := trimJS text
        if directTitleOk trimmed then some trimmed else none
      match extractTitleFromText text with
      | some extracted =>
        if ¬ reTestFull genericEventCount extracted then some extracted else direct
      | none => direct) with
  | some t => some t
  | none =>
    match parent? with
    | some p =>
      let parentAriaLabel := (p.getAttr "aria-label").getD ""
      let parentTitle := (p.getAttr "title").getD ""
      match extractTitleFromText
          (if parentAriaLabel ≠ "" then parentAriaLabel else parentTitle) with
      | some pe => if ¬ reTestFull genericEventCount pe then some pe else none
      | none => none
    | none => none

/-- The deep title search climbing the ancestor chain. -/
def deepTitleSearch : List Elem → Option String
  | [] => none
  | el :: rest =>
    match deepTitleOf el rest.head? with
    | some t => some t
    | none => deepTitleSearch rest

/-- The full title cascade of `parseEventElement` (`""` plays `null`). -/
def computeTitle (chain : List Elem) (timeText ariaLabel : String) : String :=
  let t0 := (extractTitleFromText (if timeText ≠ "" then timeText else ariaLabel)).getD ""
  let t1 := if t0 = "" then (titleFromAttrs chain).getD "" else t0
  let t2 := if t1 = "" then (titleFromTextContent chain).getD "" else t1
  if t2 ≠ "" ∧ reTestFull genericEventCount t2 then
    match extractTitleFromText (if timeText ≠ "" then timeText else ariaLabel) with
    | some realTitle =>
      if ¬ reTestFull genericEventCount realTitle then realTitle
      else (deepTitleSearch chain).getD t2
    | none => (deepTitleSearch chain).getD t2
  else t2

/-- Models `parseEventElement(element)`. -/
def parseEventElement (env : Env) (chain : List Elem) : Option CalendarEvent :=
  let element := chain.headD defaultElem
  let (timeText, ariaLabel) := findTimeAria chain "" ""
  let title := computeTitle chain timeText ariaLabel
  if title = "" ∨ strLen title ≤ 1 ∨ reTestFull genericEventCount title ∨
      title = "С" ∨ title = "с" then none
  else
    let date0 := extractDateFromTimeText timeText
    let date1 : JSDate :=
      if isValidDate date0 then date0.getD JSDate.invalid else extractDate env chain
    match parseTime timeText element with
    | (startMinutes, endMinutes) =>
      if startMinutes.isNull ∨ endMinutes.isNull then none
      else if endMinutes.jle startMinutes then none
      else
        let duration := endMinutes.jsub startMinutes
        let date2 := if ¬ isValidDateD date1 then normalizeDate env.today else normalizeDate date1
        let color := extractColor chain
        some { title := title, startMinutes := startMinutes, endMinutes := endMinutes,
               date := date2, duration := duration, color := color }

/-- The slot-hour default branch of `parseFromTimeSlots` (reached only when
`event.startMinutes === null`). -/
def slotAdjust (hour : JSVal) (event : CalendarEvent) : CalendarEvent :=
  if event.startMinutes.isNull then
    { event with startMinutes := hour.jmul (.jint 60),
                 endMinutes := (hour.jadd (.jint 1)).jmul (.jint 60),
                 duration := JSVal.jint 60 }
  else event

/-- Models `parseFromTimeSlots(events)`: for each `[data-hour]` container, parse
every `[role="button"]` descendant and push the results. -/
def parseFromTimeSlots (env : Env) (events : List CalendarEvent) : List CalendarEvent :=
  let slotChains := (docChains env).filter (fun ch => hasAttrSel "data-hour" (ch.headD defaultElem))
  events ++ slotChains.flatMap (fun slotChain =>
    let slot := slotChain.headD defaultElem
    let hour := parseIntJS (some ((strTruthy (slot.getAttr "data-hour")).getD "0"))
    let eventChains := ((chainsUnder (slotChain.drop 1) slot).drop 1).filter
      (fun ch => attrEqSel "role" "button" (ch.headD defaultElem))
    eventChains.filterMap (fun ch => (parseEventElement env ch).map (slotAdjust hour)))

/-- The deduplication key
`` `${event.title}-${event.date.toDateString()}-${event.startMinutes}` ``. -/
def dedupKey (event : CalendarEvent) : String :=
  event.title ++ "-" ++ event.date.toDateString ++ "-" ++ jsvalToString event.startMinutes

/-- Models `deduplicateEvents` with the `seen` key set made explicit. -/
def dedupGo (seen : List String) : List CalendarEvent → List CalendarEvent
  | [] => []
  | e :: rest =>
    if ¬ isValidDateD e.date then dedupGo seen rest
    else
      let key := dedupKey e
      if seen.contains key then dedupGo seen rest
      else e :: dedupGo (key :: seen) rest

/-- Models `deduplicateEvents(events)`. -/
def deduplicateEvents (events : List CalendarEvent) : List CalendarEvent :=
  dedupGo [] events

/-- Models `parseEvents()`: the four scan strategies followed by deduplication. -/
def parseEvents (env : Env) : List CalendarEvent :=
  let chains := docChains env
  let events1 := (chains.filter (fun ch =>
      hasAttrSel "data-eventid" (ch.headD defaultElem))).filterMap (parseEventElement env)
  let events2 :=
    if events1.isEmpty then
      events1 ++ (chains.filter (fun ch =>
        let e := ch.headD defaultElem
        attrEqSel "role" "button" e && hasAttrSel "aria-label" e &&
          (ch.drop 1).any (attrEqSel "role" "gridcell"))).filterMap (parseEventElement env)
    else events1
  let events3 :=
    if events2.isEmpty then
      events2 ++ (chains.filter (fun ch =>
        let e := ch.headD defaultElem
        hasClassSel "event-container" e || hasClassSel "event" e ||
          classSubstrSel "event" e)).filterMap (parseEventElement env)
    else events2
  deduplicateEvents (parseFromTimeSlots env events3)

end EventParser

/-! ## `src/time-calculator.ts` (`TimeCalculator`, the `GroupingMode`
revision cited by the claims) -/

namespace TimeCalculator

open JSVal JSDate

/-- Models `GroupingMode`. -/
inductive GroupingMode where
  | BY_NAME
  | BY_COLOR
deriving DecidableEq, Repr

/-- Models `normalizeActivityName(name)`. -/
def normalizeActivityName (name : String) : String := trimJS name

/-- Models `normalizeColor(color)`. -/
def normalizeColor (color : String) : String :=
  if color = "" then DEFAULT_COLOR else color

/-- Models `getColorName(color)`: upper-case, ensure a leading `#`, look up the
display-name table, fall back to `` `${DEFAULT_COLOR_NAME} ${normalized}` ``. -/
def getColorName (color : String) : String :=
  let upper := strUpper color
  let normalized := if listStartsWith upper.data ['#'] then upper else "#" ++ upper
  match tableGet COLOR_NAMES normalized with
  | some n => n
  | none => DEFAULT_COLOR_NAME ++ " " ++ normalized

/-- Models `formatDuration(minutes)` (`Math.floor` and JS `%` on a possibly-`NaN`
number; `null` would coerce to `0`). -/
def formatDuration (minutes : JSVal) : String :=
  match minutes.toNum with
  | none => "NaNh NaNm"
  | some n =>
    let hours := Int.fdiv n 60
    let mins := Int.tmod n 60
    if hours = 0 then toString mins ++ "m"
    else if mins = 0 then toString hours ++ "h"
    else toString hours ++ "h " ++ toString mins ++ "m"

/-- Models `Map.get(key)!.push(event)` grouping: the JS `Map` keeps keys in
insertion order and appends within a group. -/
def insertGrouped (key : String) (e : CalendarEvent) :
    List (String × List CalendarEvent) → List (String × List CalendarEvent)
  | [] => [(key, [e])]
  | (k, g) :: rest =>
    if k = key then (k, g ++ [e]) :: rest else (k, g) :: insertGrouped key e rest

/-- The grouping key: normalized color (with the default substituted for a
falsy color) in `BY_COLOR` mode, trimmed title in `BY_NAME` mode. -/
def groupKeyOf (groupingMode : GroupingMode) (event : CalendarEvent) : String :=
  match groupingMode with
  | .BY_COLOR =>
    normalizeColor (match event.color with
      | some c => if c = "" then DEFAULT_COLOR else c
      | none => DEFAULT_COLOR)
  | .BY_NAME => normalizeActivityName event.title

/-- The grouped map after the first `forEach`. -/
def groupEvents (groupingMode : GroupingMode) (events : List CalendarEvent) :
    List (String × List CalendarEvent) :=
  events.foldl (fun m e => insertGrouped (groupKeyOf groupingMode e) e m) []

/-- Models `eventGroup.reduce((sum, event) => sum + event.duration, 0)`. -/
def totalOf (eventGroup : List CalendarEvent) : JSVal :=
  eventGroup.foldl (fun sum e => sum.jadd e.duration) (JSVal.jint 0)

/-- One summary from a group (`calculateSummaries`, second `forEach`). -/
def mkSummary (groupingMode : GroupingMode) (key : String)
    (eventGroup : List CalendarEvent) : ActivitySummary :=
  let totalMinutes := totalOf eventGroup
  let count := eventGroup.length
  let formattedDuration := formatDuration totalMinutes
  match groupingMode with
  | .BY_COLOR =>
    { name := getColorName key, totalMinutes := totalMinutes, count := count,
      formattedDuration := formattedDuration, color := some key }
  | .BY_NAME =>
    { name := key, totalMinutes := totalMinutes, count := count,
      formattedDuration := formattedDuration,
      color := (eventGroup.find? (fun e => (strTruthy e.color).isSome)).bind (·.color) }

/-- The summary list before sorting, in group-creation (encounter) order. -/
def rawSummaries (groupingMode : GroupingMode) (events : List CalendarEvent) :
    List ActivitySummary :=
  (groupEvents groupingMode events).map (fun x => mkSummary groupingMode x.1 x.2)

/-- The comparator `(a, b) => b.totalMinutes - a.totalMinutes` as consumed
by `Array.prototype.sort` (a `NaN` comparator result counts as `+0`). -/
def sortComp (a b : ActivitySummary) : Int :=
  match (b.totalMinutes.jsub a.totalMinutes).toNum with
  | some v => v
  | none => 0

/-- Models `Array.prototype.sort` (required stable since ES2019), modelled as a
stable insertion sort: an element is placed before the first element it
need not follow. For a consistent comparator this is the unique stable
sort, hence the array `sort` produces. -/
def insertSorted (x : ActivitySummary) : List ActivitySummary → List ActivitySummary
  | [] => [x]
  | y :: ys => if sortComp x y ≤ 0 then x :: y :: ys else y :: insertSorted x ys

def sortJS (l : List ActivitySummary) : List ActivitySummary :=
  l.foldr insertSorted []

/-- Models `calculateSummaries(events, groupingMode)`. -/
def calculateSummaries (events : List CalendarEvent) (groupingMode : GroupingMode) :
    List ActivitySummary :=
  sortJS (rawSummaries groupingMode events)

/-- Models `filterEventsByDateRange(events, startDate, endDate)`. -/
def filterEventsByDateRange (events : List CalendarEvent)
    (startDate endDate : JSDate) : List CalendarEvent :=
  if ¬ isValidDateD startDate ∨ ¬ isValidDateD endDate then events
  else
    let normalizedStart := normalizeDate startDate
    let normalizedEnd := normalizeDate endDate
    events.filter (fun event =>
      if ¬ isValidDateD event.date then false
      else
        let eventDate := normalizeDate event.date
        jsDateLe normalizedStart eventDate && jsDateLe eventDate normalizedEnd)

end TimeCalculator

/-! ## Concrete fixtures used by the claims -/

open EventParser TimeCalculator

/-- A time-slot candidate: a button with a title but no parseable time. -/
def btnC1 : Elem := .mk [("role", "button"), ("aria-label", "Gym session")] "" [] "" "" "" "" 0 0 []

/-- An hour-labelled time-slot container (`data-hour="9"`). -/
def slotC1 : Elem := .mk [("data-hour", "9")] "" [] "" "" "" "" 0 0 [btnC1]

/-- A document whose only event-like content is the slot candidate. -/
def envC1 : Env :=
  { doc := Elem.mk [] "" [] "" "" "" "" 0 0 [slotC1],
    today := JSDate.mkJSDate 2025 5 15,
    jsParse := fun _ => JSDate.invalid,
    dateParam := none }

/-- A `[data-eventid]` event node whose only time signal is a single
`H:MM` token in its `aria-label`. -/
def elemC2 : Elem :=
  .mk [("data-eventid", "x1"), ("aria-label", "Gym session, 9:30")] "" [] "" "" "" "" 0 0 []

def envC2 : Env :=
  { doc := Elem.mk [] "" [] "" "" "" "" 0 0 [elemC2],
    today := JSDate.mkJSDate 2025 5 15,
    jsParse := fun _ => JSDate.invalid,
    dateParam := none }

/-- The event `parseEvents` produces from `envC2`: its `endMinutes` and
`duration` are `NaN`. -/
def evC2 : CalendarEvent :=
  { title := "Gym session", startMinutes := .jint 570, endMinutes := .jnan,
    date := .valid 2025 5 15 0, duration := .jnan, color := none }

/-- An event with no color signal (groups under the default color). -/
def evC4 : CalendarEvent :=
  { title := "Gym", startMinutes := .jint 420, endMinutes := .jint 480,
    date := JSDate.mkJSDate 2025 0 10, duration := .jint 60, color := none }

/-- An element whose only color signal is `style="background: white"`. -/
def elemWhite : Elem := .mk [("style", "background: white")] "" [] "" "" "" "" 0 0 []

/-- An element whose only color signal is `data-color="blue"`. -/
def elemBlue : Elem := .mk [("data-color", "blue")] "" [] "" "" "" "" 0 0 []

/-- Is `s` a normalized 6-hex-digit color of the form `#rrggbb` (lowercase,
as this code's palette and converter produce)? -/
def isHexLowerDigit (c : Char) : Bool := isDig c ∨ ('a' ≤ c ∧ c ≤ 'f')

def isHex6Lower (s : String) : Bool :=
  match s.data with
  | '#' :: rest => rest.length = 6 && rest.all isHexLowerDigit
  | _ => false

/-! ## Shared helper lemmas -/

@[simp] lemma jadd_int (a b : Int) : (JSVal.jint a).jadd (JSVal.jint b) = .jint (a + b) := rfl

@[simp] lemma jmul_int (a b : Int) : (JSVal.jint a).jmul (JSVal.jint b) = .jint (a * b) := rfl

@[simp] lemma jsub_int (a b : Int) : (JSVal.jint a).jsub (JSVal.jint b) = .jint (a - b) := rfl

/-- Models `parseEventElement` only returns events whose `startMinutes` passed the
`=== null` guard, so the slot-default branch can never see a `null` start. -/
lemma parseEventElement_start_not_null (env : Env) (chain : List Elem) :
    (EventParser.parseEventElement env chain).all (fun ev => !ev.startMinutes.isNull) = true := by
  unfold EventParser.parseEventElement
  split
  next timeText ariaLabel _ =>
    dsimp only []
    split
    · rfl
    next _ =>
      split
      next h => rfl
      next h =>
        split
        · rfl
        next _ =>
          simp only [not_or] at h
          simp only [Option.all_some]
          simpa using h.1

/-! ## Claim theorems (concrete) -/

/-- C1: the slot-hour default is dead code. `parseEventElement` returns
`null` whenever the time cannot be parsed, so the strategy-4 guard
`event.startMinutes === null` never fires: for the document whose
`data-hour="9"` slot contains a candidate (`btnC1`) with a valid title but
no parseable time, `parseEventElement` discards the candidate and
`parseEvents` emits no event at all — not the claimed
`startMinutes = 540, endMinutes = 600, duration = 60` default event. -/
theorem c1_slot_default_is_dead_code :
    EventParser.parseEventElement envC1 [btnC1, slotC1, envC1.doc] = none ∧
    EventParser.parseEvents envC1 = [] ∧
    (∀ env chain,
      (EventParser.parseEventElement env chain).all
        (fun ev => !ev.startMinutes.isNull) = true) :=
  ⟨by decide, by decide, parseEventElement_start_not_null⟩

/-- C2: the pipeline can emit an event violating
`duration == endMinutes - startMinutes > 0`. The aria-label time fallback
matches `TIME_FORMAT` (two capture groups) but reads groups 3 and 4, so
`endMinutes` and `duration` are `NaN`: on `envC2` (one `[data-eventid]`
node with `aria-label "Gym session, 9:30"`), `parseEvents` returns exactly
one event whose `endMinutes` and `duration` are `NaN`, with
`duration > 0` and `endMinutes > startMinutes` both false. -/
theorem c2_duration_invariant_violated :
    EventParser.parseEvents envC2 = [evC2] ∧
    evC2.endMinutes = JSVal.jnan ∧
    evC2.duration = JSVal.jnan ∧
    evC2.duration.jgt (.jint 0) = false ∧
    evC2.endMinutes.jgt evC2.startMinutes = false :=
  ⟨by decide, rfl, rfl, rfl, rfl⟩

/-- C4: color-id `"9"` does resolve to the palette's 9th entry
(`#5484ed`), but `getColorName` upper-cases the key before looking it up
in the lowercase-keyed `COLOR_NAMES` table, so the lookup never hits: the
summary name for `#5484ed` is `"Graphite #5484ED"` rather than the
palette's `"Blueberry"`, and an event with no resolvable color groups
under the default color `#e1e1e1` with summary name `"Graphite #E1E1E1"`
rather than the default display name `"Graphite"`. -/
theorem c4_color_display_name_lookup_broken :
    EventParser.getColorFromId "9" = some "#5484ed" ∧
    (COLOR_MAP.get? 8).map (fun x => x.2) = some "#5484ed" ∧
    tableGet COLOR_NAMES "#5484ed" = some "Blueberry" ∧
    TimeCalculator.getColorName "#5484ed" = "Graphite #5484ED" ∧
    TimeCalculator.getColorName DEFAULT_COLOR = "Graphite #E1E1E1" ∧
    TimeCalculator.getColorName DEFAULT_COLOR ≠ DEFAULT_COLOR_NAME ∧
    (TimeCalculator.calculateSummaries [evC4] .BY_COLOR).map (fun s => (s.name, s.color)) =
      [("Graphite #E1E1E1", some "#e1e1e1")] :=
  ⟨by decide, by decide, by decide, by decide, by decide, by decide, by decide⟩

/-- C8: the 12-hour conversion rule — 12 AM maps to hour 0, 12 PM stays
12, any other PM hour gains 12, AM or no marker leaves the hour — and the
scenario: `"9:30 AM - 10:00 AM"` on an element with no locale markers and
no time attributes parses to `startMinutes = 570`, `endMinutes = 600`. -/
theorem c8_ampm_conversion_and_scenario :
    (∀ h m : Int, EventParser.convertTo24Hour (.jint h) (.jint m) (some "AM") =
      .jint ((if h = 12 then 0 else h) * 60 + m)) ∧
    (∀ h m : Int, EventParser.convertTo24Hour (.jint h) (.jint m) (some "PM") =
      .jint ((if h = 12 then 12 else h + 12) * 60 + m)) ∧
    (∀ h m : Int, EventParser.convertTo24Hour (.jint h) (.jint m) none =
      .jint (h * 60 + m)) ∧
    EventParser.parseTime "9:30 AM - 10:00 AM" defaultElem = (.jint 570, .jint 600) := by
  refine ⟨fun h m => ?_, fun h m => ?_, fun h m => ?_, by decide⟩
  · by_cases h12 : h = 12 <;>
      simp [EventParser.convertTo24Hour, h12]
  · by_cases h12 : h = 12 <;>
      simp [EventParser.convertTo24Hour, h12]
  · simp [EventParser.convertTo24Hour]

/-! ## Deduplication (C6, C7) -/

/-- The claim's description of deduplication, stated independently of the
`seen`-set implementation: walk the list in order, keeping an event iff
its date is valid and no earlier event with a valid date carries the same
key `(title, date-as-calendar-day, startMinutes)`. -/
def dedupFirstWins (prev : List CalendarEvent) : List CalendarEvent → List CalendarEvent
  | [] => []
  | e :: rest =>
    if isValidDateD e.date ∧
        ¬ prev.any (fun p => isValidDateD p.date &&
          (EventParser.dedupKey p == EventParser.dedupKey e)) then
      e :: dedupFirstWins (prev ++ [e]) rest
    else dedupFirstWins (prev ++ [e]) rest

/-- The cons-unfolding of `dedupGo`. -/
lemma dedupGo_cons (seen : List String) (e : CalendarEvent) (rest : List CalendarEvent) :
    EventParser.dedupGo seen (e :: rest) =
      if ¬ isValidDateD e.date then EventParser.dedupGo seen rest
      else if seen.contains (EventParser.dedupKey e) then EventParser.dedupGo seen rest
      else e :: EventParser.dedupGo (EventParser.dedupKey e :: seen) rest := rfl

/-- The cons-unfolding of `dedupFirstWins`. -/
lemma dedupFirstWins_cons (prev : List CalendarEvent) (e : CalendarEvent)
    (rest : List CalendarEvent) :
    dedupFirstWins prev (e :: rest) =
      if isValidDateD e.date ∧
          ¬ prev.any (fun p => isValidDateD p.date &&
            (EventParser.dedupKey p == EventParser.dedupKey e)) then
        e :: dedupFirstWins (prev ++ [e]) rest
      else dedupFirstWins (prev ++ [e]) rest := rfl

/-- The `seen` set of `dedupGo` holds exactly the keys of earlier
valid-date events. -/
lemma dedupGo_eq_firstWins (l : List CalendarEvent) :
    ∀ (seen : List String) (prev : List CalendarEvent),
    (∀ k, seen.contains k =
      prev.any (fun p => isValidDateD p.date && (EventParser.dedupKey p == k))) →
    EventParser.dedupGo seen l = dedupFirstWins prev l := by
  induction l with
  | nil => intro seen prev hinv; rfl
  | cons e rest ih =>
    intro seen prev hinv
    rw [dedupGo_cons, dedupFirstWins_cons]
    by_cases hv : isValidDateD e.date = true
    · rw [if_neg (by simp [hv])]
      by_cases hc : prev.any (fun p => isValidDateD p.date &&
          (EventParser.dedupKey p == EventParser.dedupKey e)) = true
      · rw [if_pos (by rw [hinv]; exact hc), if_neg (by simp [hc])]
        refine ih _ _ (fun k => ?_)
        rw [hinv k, List.any_append, List.any_cons, List.any_nil]
        by_cases hk : EventParser.dedupKey e = k
        · subst hk; simp [hc]
        · simp [hk]
      · rw [if_neg (by rw [hinv]; exact hc), if_pos ⟨hv, hc⟩]
        congr 1
        refine ih _ _ (fun k => ?_)
        rw [List.contains_cons, List.any_append, List.any_cons, List.any_nil, hinv k]
        by_cases hk : EventParser.dedupKey e = k
        · subst hk; simp [hv]
        · have h1 : (k == EventParser.dedupKey e) = false := by simp [Ne.symm hk]
          have h2 : (EventParser.dedupKey e == k) = false := by simp [hk]
          simp [h1, h2]
    · rw [if_pos (by simp [hv]), if_neg (by simp [hv])]
      refine ih _ _ (fun k => ?_)
      rw [hinv k, List.any_append, List.any_cons, List.any_nil]
      have hvf : isValidDateD e.date = false := by simpa using hv
      simp [hvf]

/-- C6: `deduplicateEvents` keeps exactly the first occurrence of each
key (title, calendar day, startMinutes) among valid-date events, drops
every later event with the same key, and excludes every event whose date
is invalid (`NaN` or year outside `[1900, 2100]`; the `date` field of an
event is never absent). -/
theorem c6_dedup_first_occurrence_wins (events : List CalendarEvent) :
    EventParser.deduplicateEvents events = dedupFirstWins [] events := by
  apply dedupGo_eq_firstWins
  intro k
  rfl

/-- Running `dedupGo` again (with the same starting `seen` set) changes
nothing: emitted events are valid and their keys join `seen` as they are
emitted, so the second pass keeps them all. -/
lemma dedupGo_idem (l : List CalendarEvent) :
    ∀ seen, EventParser.dedupGo seen (EventParser.dedupGo seen l) =
      EventParser.dedupGo seen l := by
  induction l with
  | nil => intro seen; rfl
  | cons e rest ih =>
    intro seen
    by_cases hv : isValidDateD e.date = true
    · by_cases hc : seen.contains (EventParser.dedupKey e) = true
      · rw [dedupGo_cons, if_neg (by simp [hv]), if_pos hc]
        exact ih seen
      · rw [dedupGo_cons, if_neg (by simp [hv]), if_neg hc]
        rw [dedupGo_cons, if_neg (by simp [hv]), if_neg hc, ih]
    · rw [dedupGo_cons, if_pos (by simp [hv])]
      exact ih seen

/-- C7: deduplication is idempotent, `dedupe(dedupe(x)) == dedupe(x)`. -/
theorem c7_dedup_idempotent (events : List CalendarEvent) :
    EventParser.deduplicateEvents (EventParser.deduplicateEvents events) =
      EventParser.deduplicateEvents events :=
  dedupGo_idem events []

/-! ## Aggregation sums (C3) -/

/-- Models `Σ` over a list of JS numbers, as `reduce((sum, x) => sum + x, 0)`. -/
def sumJ (l : List JSVal) : JSVal := l.foldl JSVal.jadd (.jint 0)

/-- The spec's `Σ summary.totalMinutes`. -/
def sumTotals (summaries : List ActivitySummary) : JSVal :=
  sumJ (summaries.map (·.totalMinutes))

/-- The spec's `Σ event.duration`. -/
def sumDurations (events : List CalendarEvent) : JSVal :=
  sumJ (events.map (·.duration))

lemma jadd_comm (a b : JSVal) : a.jadd b = b.jadd a := by
  cases a <;> cases b <;> simp [JSVal.jadd, JSVal.toNum, Int.add_comm]

lemma jadd_assoc (a b c : JSVal) : (a.jadd b).jadd c = a.jadd (b.jadd c) := by
  cases a <;> cases b <;> cases c <;> simp [JSVal.jadd, JSVal.toNum, Int.add_assoc]

lemma jadd_ne_null (a b : JSVal) : a.jadd b ≠ JSVal.jnull := by
  cases a <;> cases b <;> simp [JSVal.jadd, JSVal.toNum]

instance : RightCommutative JSVal.jadd :=
  ⟨fun b a₁ a₂ => by rw [jadd_assoc, jadd_assoc, jadd_comm a₁ a₂]⟩

/-- Adding zero on the left only normalizes `null` to `0`, which is
transparent under a further addition. -/
lemma jadd_zero_left_jadd (x y : JSVal) :
    ((JSVal.jint 0).jadd x).jadd y = x.jadd y := by
  cases x <;> cases y <;> simp [JSVal.jadd, JSVal.toNum]

lemma jadd_zero_right (a : JSVal) (h : a ≠ JSVal.jnull) : a.jadd (.jint 0) = a := by
  cases a <;> simp_all [JSVal.jadd, JSVal.toNum]

/-- Shifting a non-`null` accumulator out of a `jadd` fold. -/
lemma foldl_jadd_shift (l : List JSVal) :
    ∀ a : JSVal, a ≠ JSVal.jnull → l.foldl JSVal.jadd a = a.jadd (sumJ l) := by
  induction l with
  | nil => intro a ha; exact (jadd_zero_right a ha).symm
  | cons x l ih =>
    intro a ha
    rw [List.foldl_cons, ih (a.jadd x) (jadd_ne_null a x)]
    unfold sumJ
    rw [List.foldl_cons, ih ((JSVal.jint 0).jadd x) (jadd_ne_null _ x),
      ← jadd_assoc, ← jadd_assoc]
    congr 1
    cases a <;> cases x <;> simp [JSVal.jadd, JSVal.toNum]

/-- A `jadd` sum is never `null`. -/
lemma sumJ_ne_null (l : List JSVal) : sumJ l ≠ JSVal.jnull := by
  cases l with
  | nil => simp [sumJ]
  | cons x l =>
    unfold sumJ
    rw [List.foldl_cons, foldl_jadd_shift _ _ (jadd_ne_null _ x)]
    exact jadd_ne_null _ _

lemma jadd_zero_left (x : JSVal) (h : x ≠ JSVal.jnull) : (JSVal.jint 0).jadd x = x := by
  cases x <;> simp_all [JSVal.jadd, JSVal.toNum]

/-- Models `Σ` over a concatenation. -/
lemma sumJ_append (l₁ l₂ : List JSVal) :
    sumJ (l₁ ++ l₂) = (sumJ l₁).jadd (sumJ l₂) := by
  cases l₁ with
  | nil =>
    simpa [sumJ] using (jadd_zero_left _ (sumJ_ne_null l₂)).symm
  | cons x l =>
    unfold sumJ
    rw [List.cons_append, List.foldl_cons, List.foldl_append,
      foldl_jadd_shift _ _ (jadd_ne_null _ x), List.foldl_cons,
      foldl_jadd_shift _ _ (jadd_ne_null _ x),
      foldl_jadd_shift _ _ (jadd_ne_null _ _)]
    rfl

/-- Models `Σ` is invariant under permutation. -/
lemma sumJ_perm {l₁ l₂ : List JSVal} (p : l₁.Perm l₂) : sumJ l₁ = sumJ l₂ :=
  p.foldl_eq _

lemma sumJ_cons (x : JSVal) (xs : List JSVal) : sumJ (x :: xs) = x.jadd (sumJ xs) := by
  unfold sumJ
  rw [List.foldl_cons, foldl_jadd_shift _ _ (jadd_ne_null _ x)]
  exact jadd_zero_left_jadd x _

/-- The concatenation of the grouped event lists. -/
def joinGroups (gs : List (String × List CalendarEvent)) : List CalendarEvent :=
  (gs.map (·.2)).flatten

/-- Inserting an event into the grouped map appends it to exactly one
group. -/
lemma joinGroups_insert (k : String) (e : CalendarEvent)
    (m : List (String × List CalendarEvent)) :
    (joinGroups (TimeCalculator.insertGrouped k e m)).Perm (joinGroups m ++ [e]) := by
  induction m with
  | nil => simp [joinGroups, TimeCalculator.insertGrouped]
  | cons kg rest ih =>
    obtain ⟨k', g⟩ := kg
    by_cases hk : k' = k
    · subst hk
      rw [show TimeCalculator.insertGrouped k' e ((k', g) :: rest) = (k', g ++ [e]) :: rest by
        unfold TimeCalculator.insertGrouped; rw [if_pos rfl]]
      simp only [joinGroups, List.map_cons, List.flatten_cons, List.append_assoc]
      exact (@List.perm_append_comm _ [e] _).append_left g
    · simp only [TimeCalculator.insertGrouped, if_neg hk, joinGroups,
        List.map_cons, List.flatten_cons, List.append_assoc]
      exact ih.append_left g

/-- The grouped map partitions the event list. -/
lemma groupEvents_perm_aux (mode : TimeCalculator.GroupingMode) (l : List CalendarEvent) :
    ∀ m, (joinGroups (l.foldl
      (fun m e => TimeCalculator.insertGrouped (TimeCalculator.groupKeyOf mode e) e m) m)).Perm
      (joinGroups m ++ l) := by
  induction l with
  | nil => intro m; simp
  | cons e l ih =>
    intro m
    rw [List.foldl_cons]
    refine ((ih _).trans ?_)
    refine ((joinGroups_insert _ e m).append_right l).trans (List.Perm.of_eq ?_)
    simp

lemma groupEvents_perm (mode : TimeCalculator.GroupingMode) (events : List CalendarEvent) :
    (joinGroups (TimeCalculator.groupEvents mode events)).Perm events := by
  simpa [joinGroups] using groupEvents_perm_aux mode events []

/-- Each group's `totalMinutes` is the `Σ` of its members' durations. -/
lemma totalOf_eq_sumJ (g : List CalendarEvent) :
    TimeCalculator.totalOf g = sumJ (g.map (·.duration)) := by
  unfold TimeCalculator.totalOf sumJ
  rw [List.foldl_map]

/-- Summing group totals equals summing over the concatenated groups. -/
lemma sumJ_joinGroups (gs : List (String × List CalendarEvent)) :
    sumJ (gs.map (fun x => TimeCalculator.totalOf x.2)) =
      sumDurations (joinGroups gs) := by
  induction gs with
  | nil => rfl
  | cons kg rest ih =>
    obtain ⟨k, g⟩ := kg
    rw [List.map_cons, sumJ_cons, totalOf_eq_sumJ, ih]
    show (sumJ (g.map (·.duration))).jadd (sumDurations (joinGroups rest)) = _
    unfold sumDurations joinGroups
    rw [List.map_cons, List.flatten_cons, List.map_append, sumJ_append]

/-- The insertion sort is a permutation. -/
lemma insertSorted_perm (x : ActivitySummary) (l : List ActivitySummary) :
    (TimeCalculator.insertSorted x l).Perm (x :: l) := by
  induction l with
  | nil => exact List.Perm.refl _
  | cons y ys ih =>
    unfold TimeCalculator.insertSorted
    by_cases hc : TimeCalculator.sortComp x y ≤ 0
    · rw [if_pos hc]
    · rw [if_neg hc]
      exact (ih.cons y).trans (List.Perm.swap x y ys)

lemma sortJS_perm (l : List ActivitySummary) : (TimeCalculator.sortJS l).Perm l := by
  induction l with
  | nil => exact List.Perm.refl _
  | cons x l ih =>
    unfold TimeCalculator.sortJS
    exact (insertSorted_perm _ _).trans (ih.cons x)

/-- Total time survives grouping, summarising and sorting, in either mode. -/
lemma sumTotals_calculateSummaries (mode : TimeCalculator.GroupingMode)
    (events : List CalendarEvent) :
    sumTotals (TimeCalculator.calculateSummaries events mode) = sumDurations events := by
  unfold TimeCalculator.calculateSummaries
  have h1 : sumTotals (TimeCalculator.sortJS (TimeCalculator.rawSummaries mode events)) =
      sumTotals (TimeCalculator.rawSummaries mode events) :=
    sumJ_perm ((sortJS_perm _).map (·.totalMinutes))
  rw [h1]
  have h2 : sumTotals (TimeCalculator.rawSummaries mode events) =
      sumJ ((TimeCalculator.groupEvents mode events).map (fun x => TimeCalculator.totalOf x.2)) := by
    unfold sumTotals TimeCalculator.rawSummaries
    congr 1
    rw [List.map_map]
    refine List.map_congr_left (fun x _ => ?_)
    cases mode <;> rfl
  rw [h2, sumJ_joinGroups]
  exact sumJ_perm ((groupEvents_perm mode events).map (·.duration))

/-- C3: aggregation conserves total time — for every event list, the sum
of `summary.totalMinutes` over the `byName` summaries, the sum over the
`byColor` summaries, and the sum of `event.duration` over the events
all coincide. -/
theorem c3_total_time_conserved (events : List CalendarEvent) :
    sumTotals (TimeCalculator.calculateSummaries events .BY_NAME) = sumDurations events ∧
    sumTotals (TimeCalculator.calculateSummaries events .BY_COLOR) = sumDurations events ∧
    sumTotals (TimeCalculator.calculateSummaries events .BY_NAME) =
      sumTotals (TimeCalculator.calculateSummaries events .BY_COLOR) := by
  refine ⟨sumTotals_calculateSummaries _ events, sumTotals_calculateSummaries _ events, ?_⟩
  rw [sumTotals_calculateSummaries _ events, sumTotals_calculateSummaries _ events]

/-! ## Sorting (C9) -/

/-- Descending order on summaries by `totalMinutes` (JS `>=`). -/
def totalGe (a b : ActivitySummary) : Prop :=
  a.totalMinutes.jge b.totalMinutes = true

instance : DecidableRel totalGe := fun a b => by unfold totalGe; infer_instance

/-- Every summary total in the list is an integer (no `NaN`). -/
def allIntTotals (l : List ActivitySummary) : Prop :=
  ∀ s ∈ l, ∃ n : Int, s.totalMinutes = JSVal.jint n

/-- A comparator verdict `≤ 0` means "already in order" for integers. -/
lemma totalGe_of_sortComp_nonpos {x y : ActivitySummary}
    (hx : ∃ n : Int, x.totalMinutes = JSVal.jint n)
    (hy : ∃ n : Int, y.totalMinutes = JSVal.jint n)
    (h : TimeCalculator.sortComp x y ≤ 0) : totalGe x y := by
  obtain ⟨n, hn⟩ := hx; obtain ⟨m, hm⟩ := hy
  unfold TimeCalculator.sortComp at h
  unfold totalGe JSVal.jge JSVal.jle
  rw [hn, hm] at h ⊢
  simp only [JSVal.jsub, JSVal.toNum, decide_eq_true_eq] at h ⊢
  omega

lemma totalGe_of_sortComp_pos {x y : ActivitySummary}
    (h : 0 < TimeCalculator.sortComp x y) : totalGe y x := by
  unfold TimeCalculator.sortComp at h
  unfold totalGe JSVal.jge JSVal.jle
  cases hx : x.totalMinutes <;> cases hy : y.totalMinutes <;>
    rw [hx, hy] at h <;>
    simp only [JSVal.jsub, JSVal.toNum, decide_eq_true_eq] at h ⊢ <;>
    omega

lemma totalGe_trans {x y z : ActivitySummary}
    (h1 : totalGe x y) (h2 : totalGe y z) : totalGe x z := by
  unfold totalGe JSVal.jge JSVal.jle at *
  cases hx : x.totalMinutes <;> cases hy : y.totalMinutes <;>
    cases hz : z.totalMinutes <;>
    rw [hx, hy] at h1 <;> rw [hy, hz] at h2 <;>
    simp_all [JSVal.toNum, decide_eq_true_eq] <;>
    omega

/-- Totals are preserved (as a set) by the insertion. -/
lemma insertSorted_mem {x : ActivitySummary} {l : List ActivitySummary} {b : ActivitySummary}
    (h : b ∈ TimeCalculator.insertSorted x l) : b = x ∨ b ∈ l := by
  have := (insertSorted_perm x l).mem_iff.mp h
  simpa using this

/-- Inserting into a descending list keeps it descending (integer totals). -/
lemma insertSorted_sorted (x : ActivitySummary) (l : List ActivitySummary)
    (hx : ∃ n : Int, x.totalMinutes = JSVal.jint n) (hl : allIntTotals l)
    (hs : List.Pairwise totalGe l) :
    List.Pairwise totalGe (TimeCalculator.insertSorted x l) := by
  induction l with
  | nil => exact List.pairwise_singleton _ _
  | cons y ys ih =>
    unfold TimeCalculator.insertSorted
    rcases List.pairwise_cons.mp hs with ⟨hy_ys, hys⟩
    by_cases hc : TimeCalculator.sortComp x y ≤ 0
    · rw [if_pos hc]
      refine List.pairwise_cons.mpr ⟨?_, hs⟩
      intro b hb
      rcases List.mem_cons.mp hb with hb1 | hb
      · exact hb1 ▸ totalGe_of_sortComp_nonpos hx (hl y (List.mem_cons_self y ys)) hc
      · exact totalGe_trans
          (totalGe_of_sortComp_nonpos hx (hl y (List.mem_cons_self y ys)) hc)
          (hy_ys b hb)
    · rw [if_neg hc]
      refine List.pairwise_cons.mpr ⟨?_, ?_⟩
      · intro b hb
        rcases insertSorted_mem hb with hb1 | hb
        · exact hb1 ▸ totalGe_of_sortComp_pos (by omega)
        · exact hy_ys b hb
      · exact ih (fun s hsm => hl s (List.mem_cons_of_mem y hsm)) hys

/-- The insertion sort of an all-integer list is descending. -/
lemma sortJS_sorted (l : List ActivitySummary) (hl : allIntTotals l) :
    List.Pairwise totalGe (TimeCalculator.sortJS l) := by
  induction l with
  | nil => exact List.Pairwise.nil
  | cons x xs ih =>
    unfold TimeCalculator.sortJS
    have hxs : allIntTotals xs := fun s hs => hl s (List.mem_cons_of_mem x hs)
    refine insertSorted_sorted x _ (hl x (List.mem_cons_self x xs)) ?_ (ih hxs)
    intro s hs
    exact hxs s ((sortJS_perm xs).mem_iff.mp hs)

/-- Two summaries with the same total never compare strictly. -/
lemma sortComp_self_nonpos {x y : ActivitySummary}
    (h : x.totalMinutes = y.totalMinutes) : TimeCalculator.sortComp x y ≤ 0 := by
  unfold TimeCalculator.sortComp
  rw [h]
  cases hy : y.totalMinutes <;> simp [JSVal.jsub, JSVal.toNum]

/-- Insertion never reorders summaries with equal totals: filtering by any
total value commutes with the insertion. -/
lemma insertSorted_filter (t : JSVal) (x : ActivitySummary) (l : List ActivitySummary) :
    (TimeCalculator.insertSorted x l).filter (fun s => s.totalMinutes == t) =
      (x :: l).filter (fun s => s.totalMinutes == t) := by
  induction l with
  | nil => rfl
  | cons y ys ih =>
    unfold TimeCalculator.insertSorted
    by_cases hc : TimeCalculator.sortComp x y ≤ 0
    · rw [if_pos hc]
    · rw [if_neg hc]
      by_cases hx : (x.totalMinutes == t) = true
      · by_cases hy : (y.totalMinutes == t) = true
        · exact absurd (sortComp_self_nonpos ((eq_of_beq hx).trans (eq_of_beq hy).symm)) hc
        · simp only [List.filter_cons, hx, hy, if_pos, if_neg, Bool.false_eq_true,
            ite_false, ite_true]
          rw [ih]
          simp [List.filter_cons, hx]
      · by_cases hy : (y.totalMinutes == t) = true
        · simp only [List.filter_cons, hx, hy, Bool.false_eq_true, ite_false, ite_true]
          rw [ih]
          simp [List.filter_cons, hx]
        · simp only [List.filter_cons, hx, hy, Bool.false_eq_true, ite_false]
          rw [ih]
          simp [List.filter_cons, hx]

/-- The sort is stable: filtering the sorted list by any total value gives
the same sequence as filtering the unsorted list. -/
lemma sortJS_stable (t : JSVal) (l : List ActivitySummary) :
    (TimeCalculator.sortJS l).filter (fun s => s.totalMinutes == t) =
      l.filter (fun s => s.totalMinutes == t) := by
  induction l with
  | nil => rfl
  | cons x xs ih =>
    unfold TimeCalculator.sortJS
    rw [List.foldr_cons, insertSorted_filter]
    simp only [List.filter_cons]
    by_cases hx : (x.totalMinutes == t) = true
    · simp only [hx, if_pos]
      rw [show (List.foldr TimeCalculator.insertSorted [] xs) = TimeCalculator.sortJS xs from rfl, ih]
    · simp only [hx, Bool.false_eq_true, if_neg, ite_false]
      rw [show (List.foldr TimeCalculator.insertSorted [] xs) = TimeCalculator.sortJS xs from rfl, ih]

/-- Raw summaries of events with integer durations have integer totals. -/
lemma sumJ_int (l : List JSVal) (h : ∀ x ∈ l, x ≠ JSVal.jnan) :
    ∃ n : Int, sumJ l = JSVal.jint n := by
  induction l with
  | nil => exact ⟨0, rfl⟩
  | cons x xs ih =>
    rw [sumJ_cons]
    obtain ⟨n, hn⟩ := ih (fun y hy => h y (List.mem_cons_of_mem x hy))
    rw [hn]
    cases hx : x with
    | jnan => exact absurd hx (h x (List.mem_cons_self x xs))
    | jnull => exact ⟨n, by simp [JSVal.jadd, JSVal.toNum]⟩
    | jint m => exact ⟨m + n, by simp [JSVal.jadd, JSVal.toNum]⟩

lemma rawSummaries_allInt (mode : TimeCalculator.GroupingMode) (events : List CalendarEvent)
    (h : ∀ e ∈ events, e.duration ≠ JSVal.jnan) :
    allIntTotals (TimeCalculator.rawSummaries mode events) := by
  intro s hs
  unfold TimeCalculator.rawSummaries at hs
  rcases List.mem_map.mp hs with ⟨⟨k, g⟩, hkg, rfl⟩
  have htot : (TimeCalculator.mkSummary mode k g).totalMinutes = TimeCalculator.totalOf g := by
    cases mode <;> rfl
  rw [htot, totalOf_eq_sumJ]
  refine sumJ_int _ (fun x hx => ?_)
  rcases List.mem_map.mp hx with ⟨e, he, rfl⟩
  refine h e ?_
  refine (groupEvents_perm mode events).mem_iff.mp ?_
  unfold joinGroups
  exact List.mem_flatten.mpr ⟨g, List.mem_map.mpr ⟨⟨k, g⟩, hkg, rfl⟩, he⟩

/-- C9: for every event list with (integer) non-`NaN` durations and either
grouping mode, `calculateSummaries` returns summaries sorted non-increasing
by `totalMinutes`, and summaries with equal `totalMinutes` keep their
encounter (group-creation) order — filtering the result by any total value
yields the same sequence as filtering the pre-sort summary list. -/
theorem c9_summaries_sorted_and_stable (events : List CalendarEvent)
    (mode : TimeCalculator.GroupingMode)
    (h : ∀ e ∈ events, e.duration ≠ JSVal.jnan) :
    List.Pairwise totalGe (TimeCalculator.calculateSummaries events mode) ∧
    ∀ t : JSVal, (TimeCalculator.calculateSummaries events mode).filter
        (fun s => s.totalMinutes == t) =
      (TimeCalculator.rawSummaries mode events).filter (fun s => s.totalMinutes == t) := by
  constructor
  · exact sortJS_sorted _ (rawSummaries_allInt mode events h)
  · intro t
    exact sortJS_stable t _

/-- Witness for C9 at a concrete input. -/
theorem c9_summaries_sorted_and_stable_witness :
    (∀ e ∈ [evC4], e.duration ≠ JSVal.jnan) ∧
    (List.Pairwise totalGe (TimeCalculator.calculateSummaries [evC4] .BY_NAME) ∧
      ∀ t : JSVal, (TimeCalculator.calculateSummaries [evC4] .BY_NAME).filter
          (fun s => s.totalMinutes == t) =
        (TimeCalculator.rawSummaries .BY_NAME [evC4]).filter (fun s => s.totalMinutes == t)) :=
  ⟨by decide, c9_summaries_sorted_and_stable [evC4] .BY_NAME (by decide)⟩

/-! ## Date-range filtering (C10) -/

/-- The claim's day-granularity range test: the event's date is valid and
its midnight-normalized day lies between the normalized bounds, both ends
inclusive. -/
def inRangeByDay (startDate endDate : JSDate) (event : CalendarEvent) : Bool :=
  isValidDateD event.date &&
  decide ((normalizeDate startDate).epochDays ≤ (normalizeDate event.date).epochDays) &&
  decide ((normalizeDate event.date).epochDays ≤ (normalizeDate endDate).epochDays)

/-- Comparing two local-midnight dates is comparing their days. -/
lemma jsDateLe_midnight (y1 mo1 d1 y2 mo2 d2 : Int) :
    JSDate.jsDateLe (.valid y1 mo1 d1 0) (.valid y2 mo2 d2 0) =
      decide (daysFromCivil y1 (mo1 + 1) d1 ≤ daysFromCivil y2 (mo2 + 1) d2) := by
  have key : ∀ a b : Int,
      (decide (a < b) || (decide (a = b) && decide ((0 : Int) ≤ 0))) = decide (a ≤ b) := by
    intro a b
    by_cases h : a < b <;> by_cases h2 : a = b <;> simp [h, h2] <;> omega
  simpa [JSDate.jsDateLe] using key _ _

/-- C10: with an invalid start or end bound, `filterEventsByDateRange`
returns the input unchanged; with valid bounds it returns exactly the
events with valid dates whose normalized day lies inclusively between the
normalized bounds, preserving input order (it is a `filter`). -/
theorem c10_filter_by_date_range (events : List CalendarEvent) (startDate endDate : JSDate) :
    (¬ (isValidDateD startDate = true ∧ isValidDateD endDate = true) →
      TimeCalculator.filterEventsByDateRange events startDate endDate = events) ∧
    (isValidDateD startDate = true → isValidDateD endDate = true →
      TimeCalculator.filterEventsByDateRange events startDate endDate =
        events.filter (inRangeByDay startDate endDate)) := by
  constructor
  · intro h
    unfold TimeCalculator.filterEventsByDateRange
    rw [if_pos]
    by_cases hs : isValidDateD startDate = true
    · exact Or.inr (by simpa [hs] using h)
    · exact Or.inl hs
  · intro hs he
    unfold TimeCalculator.filterEventsByDateRange
    rw [if_neg (by simp [hs, he])]
    refine List.filter_congr (fun ev _ => ?_)
    by_cases hv : isValidDateD ev.date = true
    · rw [if_neg (by simp [hv])]
      unfold inRangeByDay
      rw [hv]
      cases hsd : startDate with
      | invalid => rw [hsd] at hs; exact absurd hs (by simp [isValidDateD, isValidDate])
      | valid ys mos ds mss =>
        cases hed : endDate with
        | invalid => rw [hed] at he; exact absurd he (by simp [isValidDateD, isValidDate])
        | valid ye moe de mse =>
          cases hevd : ev.date with
          | invalid => rw [hevd] at hv; exact absurd hv (by simp [isValidDateD, isValidDate])
          | valid yv mov dv msv =>
            simp only [normalizeDate, jsDateLe_midnight, JSDate.epochDays, Bool.true_and]
    · rw [if_pos (by simp [hv])]
      unfold inRangeByDay
      have hvf : isValidDateD ev.date = false := by simpa using hv
      rw [hvf]
      simp

/-- Witness for C10 at concrete inputs: valid bounds filter inclusively by
day; an invalid bound leaves the list untouched. -/
theorem c10_filter_by_date_range_witness :
    (TimeCalculator.filterEventsByDateRange [evC4] (JSDate.mkJSDate 2025 0 5)
      (JSDate.mkJSDate 2025 0 31) = [evC4]) ∧
    (TimeCalculator.filterEventsByDateRange [evC4] JSDate.invalid
      (JSDate.mkJSDate 2025 0 31) = [evC4]) := by
  constructor
  · exact ((c10_filter_by_date_range [evC4] _ _).2 (by decide) (by decide)).trans (by decide)
  · exact (c10_filter_by_date_range [evC4] _ _).1 (by decide)

/-- C5 counterexample: on an element whose only color signal is the inline
declaration `style="background: white"`, the inline-style step extracts
`"white"`, `rgbToHex` cannot convert it, and `extractColor` returns the
CSS color white verbatim — a style-based step returning white, and not a
6-hex-digit string. -/
theorem c5_counterexample_inline_white :
    EventParser.inlineStyleColor elemWhite = some "white" ∧
    EventParser.rgbToHex "white" = none ∧
    EventParser.extractColor [elemWhite] = some "white" ∧
    isHex6Lower "white" = false :=
  ⟨by decide, by decide, by decide, by decide⟩

/-! ## Provenance of `extractColor` results (C5, amended) -/

/-- The elements method 1–4 scan: the element itself and its descendants. -/
def scannedElems (chain : List Elem) : List Elem :=
  let element := chain.headD defaultElem
  element :: Elem.descendantsOf element

lemma findSome?_exists {α β : Type} {f : α → Option β} {l : List α} {b : β}
    (h : l.findSome? f = some b) : ∃ a ∈ l, f a = some b := by
  induction l with
  | nil => simp [List.findSome?] at h
  | cons a l ih =>
    rw [List.findSome?_cons] at h
    cases hfa : f a with
    | some b' =>
      rw [hfa] at h
      exact ⟨a, List.mem_cons_self a l, hfa.trans h⟩
    | none =>
      rw [hfa] at h
      obtain ⟨a', ha', hfa'⟩ := ih h
      exact ⟨a', List.mem_cons_of_mem a ha', hfa'⟩

/-- Everything `tableGet` returns is one of the table's values. -/
lemma tableGet_mem {t : List (String × String)} {k v : String}
    (h : tableGet t k = some v) : v ∈ t.map (fun x => x.2) := by
  unfold tableGet at h
  cases hf : t.find? (fun x => x.1 = k) with
  | none => rw [hf] at h; simp at h
  | some p =>
    rw [hf] at h
    simp only [Option.map_some'] at h
    exact (Option.some.inj h) ▸ List.mem_map.mpr ⟨p, List.mem_of_find?_eq_some hf, rfl⟩

/-- Palette outputs are palette values. -/
lemma getColorFromId_mem {id c : String}
    (h : EventParser.getColorFromId id = some c) : c ∈ COLOR_MAP.map (fun x => x.2) :=
  tableGet_mem h

lemma tryDataColorId_mem {el : Elem} {c : String}
    (h : EventParser.tryDataColorId el = some c) : c ∈ COLOR_MAP.map (fun x => x.2) := by
  unfold EventParser.tryDataColorId at h
  cases hid : strTruthy (el.getAttr "data-color-id") with
  | none => rw [hid] at h; exact absurd h (by simp)
  | some id => rw [hid] at h; exact getColorFromId_mem h

lemma tryColorClass_mem {el : Elem} {c : String}
    (h : EventParser.tryColorClass el = some c) : c ∈ COLOR_MAP.map (fun x => x.2) := by
  unfold EventParser.tryColorClass at h
  obtain ⟨cls, _, hcls⟩ := findSome?_exists h
  cases hm : reMatch colorClassRE cls with
  | none => simp only [hm] at hcls; exact Option.noConfusion hcls
  | some g =>
    simp only [hm] at hcls
    cases hg : mGrp g 1 with
    | none => simp only [hg] at hcls; exact Option.noConfusion hcls
    | some id => simp only [hg] at hcls; exact getColorFromId_mem hcls

lemma tryAncestor_mem {el : Elem} {c : String}
    (h : EventParser.tryAncestor el = some c) : c ∈ COLOR_MAP.map (fun x => x.2) := by
  unfold EventParser.tryAncestor at h
  cases h1 : EventParser.tryDataColorId el with
  | some c' =>
    rw [h1] at h
    have h' : some c' = some c := h
    exact (Option.some.inj h') ▸ tryDataColorId_mem h1
  | none =>
    rw [h1] at h
    exact tryColorClass_mem h

/-- Splitting `tryElem` into its five methods. -/
lemma tryElem_cases {el : Elem} {c : String} (h : EventParser.tryElem el = some c) :
    EventParser.tryDataColorId el = some c ∨ EventParser.tryDataColor el = some c ∨
    EventParser.tryColorClass el = some c ∨ EventParser.tryComputed el = some c ∨
    EventParser.tryInline el = some c := by
  unfold EventParser.tryElem at h
  cases h1 : EventParser.tryDataColorId el with
  | some c1 => rw [h1] at h; exact Or.inl (show some c1 = some c from h)
  | none =>
    rw [h1] at h
    cases h2 : EventParser.tryDataColor el with
    | some c2 => rw [h2] at h; exact Or.inr (Or.inl (show some c2 = some c from h))
    | none =>
      rw [h2] at h
      cases h3 : EventParser.tryColorClass el with
      | some c3 => rw [h3] at h; exact Or.inr (Or.inr (Or.inl (show some c3 = some c from h)))
      | none =>
        rw [h3] at h
        cases h4 : EventParser.tryComputed el with
        | some c4 =>
          rw [h4] at h
          exact Or.inr (Or.inr (Or.inr (Or.inl (show some c4 = some c from h))))
        | none =>
          rw [h4] at h
          exact Or.inr (Or.inr (Or.inr (Or.inr h)))

lemma tryComputed_provenance {el : Elem} {c : String}
    (h : EventParser.tryComputed el = some c) :
    EventParser.styleNotBlocked (EventParser.styleColorOf el) ∧
    EventParser.rgbToHex (EventParser.styleColorOf el) = some c := by
  unfold EventParser.tryComputed at h
  by_cases hb : EventParser.styleNotBlocked (EventParser.styleColorOf el)
  · rw [if_pos hb] at h; exact ⟨hb, h⟩
  · rw [if_neg hb] at h; exact absurd h (by simp)

lemma tryInline_provenance {el : Elem} {c : String}
    (h : EventParser.tryInline el = some c) :
    ∃ s, EventParser.inlineStyleColor el = some s ∧
      (EventParser.rgbToHex s = some c ∨ (EventParser.rgbToHex s = none ∧ c = s)) ∧
      EventParser.inlineNotBlocked c := by
  unfold EventParser.tryInline at h
  cases hi : EventParser.inlineStyleColor el with
  | none => rw [hi] at h; exact absurd h (by simp)
  | some s =>
    simp only [hi] at h
    refine ⟨s, rfl, ?_⟩
    cases hr : EventParser.rgbToHex s with
    | some hx =>
      simp only [hr] at h
      by_cases hb : EventParser.inlineNotBlocked hx
      · rw [if_pos hb] at h
        have hc : c = hx := by simpa using h.symm
        subst hc
        exact ⟨Or.inl rfl, hb⟩
      · rw [if_neg hb] at h; exact absurd h (by simp)
    | none =>
      simp only [hr] at h
      by_cases hb : EventParser.inlineNotBlocked s
      · rw [if_pos hb] at h
        have hc : c = s := by simpa using h.symm
        subst hc
        exact ⟨Or.inr ⟨rfl, rfl⟩, hb⟩
      · rw [if_neg hb] at h; exact absurd h (by simp)

/-- C5 amended: every non-null `extractColor` result is either (a) a value
of the fixed palette table — all of which are normalized lowercase
6-hex-digit strings and none of which is white or black; (b) the verbatim
value of a `data-color` attribute on a scanned element; (c) the
`rgbToHex` conversion of a computed-style color that passed a guard
rejecting only eight exact spellings of no-signal/white/black; or (d) an
inline-style declaration value (converted when `rgbToHex` applies,
verbatim otherwise) that passed a guard rejecting only the four exact
spellings `#ffffff`, `#fff`, `#000000`, `#000`. In particular the
normalization and the white/black skip hold for the palette paths, while
the raw-attribute and style paths can return unnormalized values and
non-canonical spellings of white or black. -/
theorem c5_color_resolver_provenance (chain : List Elem) (c : String)
    (h : EventParser.extractColor chain = some c) :
    (COLOR_MAP.all (fun x => isHex6Lower x.2 &&
      !(x.2 == "#ffffff") && !(x.2 == "#000000")) = true) ∧
    (c ∈ COLOR_MAP.map (fun x => x.2) ∨
     (∃ el ∈ scannedElems chain, EventParser.tryDataColor el = some c) ∨
     (∃ el ∈ scannedElems chain,
        EventParser.styleNotBlocked (EventParser.styleColorOf el) ∧
        EventParser.rgbToHex (EventParser.styleColorOf el) = some c) ∨
     (∃ el ∈ scannedElems chain, ∃ s, EventParser.inlineStyleColor el = some s ∧
        (EventParser.rgbToHex s = some c ∨ (EventParser.rgbToHex s = none ∧ c = s)) ∧
        EventParser.inlineNotBlocked c)) := by
  refine ⟨by decide, ?_⟩
  unfold EventParser.extractColor at h
  cases hf : ((chain.headD defaultElem) ::
      Elem.descendantsOf (chain.headD defaultElem)).findSome? EventParser.tryElem with
  | some c' =>
    simp only [hf] at h
    have hcc := Option.some.inj h
    subst hcc
    obtain ⟨el, hel, hfe⟩ := findSome?_exists hf
    rcases tryElem_cases hfe with h1 | h2 | h3 | h4 | h5
    · exact Or.inl (tryDataColorId_mem h1)
    · exact Or.inr (Or.inl ⟨el, hel, h2⟩)
    · exact Or.inl (tryColorClass_mem h3)
    · exact Or.inr (Or.inr (Or.inl ⟨el, hel, tryComputed_provenance h4⟩))
    · obtain ⟨s, hs1, hs2, hs3⟩ := tryInline_provenance h5
      exact Or.inr (Or.inr (Or.inr ⟨el, hel, s, hs1, hs2, hs3⟩))
  | none =>
    simp only [hf] at h
    obtain ⟨el, _, hfe⟩ := findSome?_exists h
    exact Or.inl (tryAncestor_mem hfe)

/-- Witness for C5 (amended) at a concrete input: `data-color="blue"` is
returned verbatim. -/
theorem c5_color_resolver_provenance_witness :
    (COLOR_MAP.all (fun x => isHex6Lower x.2 &&
      !(x.2 == "#ffffff") && !(x.2 == "#000000")) = true) ∧
    (("blue" : String) ∈ COLOR_MAP.map (fun x => x.2) ∨
     (∃ el ∈ scannedElems [elemBlue], EventParser.tryDataColor el = some "blue") ∨
     (∃ el ∈ scannedElems [elemBlue],
        EventParser.styleNotBlocked (EventParser.styleColorOf el) ∧
        EventParser.rgbToHex (EventParser.styleColorOf el) = some "blue") ∨
     (∃ el ∈ scannedElems [elemBlue], ∃ s, EventParser.inlineStyleColor el = some s ∧
        (EventParser.rgbToHex s = some "blue" ∨
          (EventParser.rgbToHex s = none ∧ "blue" = s)) ∧
        EventParser.inlineNotBlocked "blue")) :=
  c5_color_resolver_provenance [elemBlue] "blue" (by decide)

end CalSum
